import Mathlib

/-! Downlink translation handler (`handler.go`)

A shallow embedding of the downlink handler of the Aliyun cloud-gateway
controller: credential parsing (`parseUsername`), template filling
(`FillTopic`), payload reshaping (`payloadFogToAliyun`) and the orchestrator
(`HandleDownlink`), followed by theorems about them.

Go strings are embedded as Lean strings; the two separator characters the
handler works with (`&` and `+`) are ASCII, so working on characters agrees
with Go working on bytes.
-/

namespace FogAliyun

/-! ## String primitives of the Go standard library used by the handler -/

/-- Number of occurrences of the character `c` in a character list
(`strings.Count` with a one-byte separator). -/
def countChar (c : Char) : List Char → Nat
  | [] => 0
  | x :: xs => if x = c then countChar c xs + 1 else countChar c xs

/-- The list-level body of `strings.Split(s, sep)` for a one-byte separator:
the pieces of `s` between consecutive occurrences of `sep`, in order.  The
accumulator `cur` holds the reversed piece being read. -/
def splitAux (sep : Char) : List Char → List Char → List (List Char)
  | [], cur => [cur.reverse]
  | x :: xs, cur =>
    if x = sep then cur.reverse :: splitAux sep xs []
    else splitAux sep xs (x :: cur)

/-- Go `strings.Split(s, sep)` with a one-byte separator `sep`.  The empty
string gives one empty piece, as in Go. -/
def Split (s : String) (sep : Char) : List String :=
  (splitAux sep s.data []).map String.mk

/-- The list-level body of `strings.Replace(s, old, new, 1)` for a one-byte
`old`: the first occurrence of `old` is replaced by `new`; a list without
`old` is returned unchanged. -/
def replaceFirst (old : Char) (new : List Char) : List Char → List Char
  | [] => []
  | x :: xs => if x = old then new ++ xs else x :: replaceFirst old new xs

/-- Go `strings.Replace(s, old, new, 1)` with a one-byte `old`. -/
def Replace1 (s : String) (old : Char) (new : String) : String :=
  String.mk (replaceFirst old new.data s.data)

/-! ## Errors -/

/-- The two error values declared by the handler. -/
inductive Error where
  | ErrUnmatchedTopic
  | ErrInvalidUsername
  deriving DecidableEq, Repr

open Error

/-! ## Topic templates -/

def FogTopicThingModelPropSet : String := "fogcloud/+/+/thing/down/property/set"
def FogTopicThingModelSvcReq : String := "fogcloud/+/+/thing/down/service/+"
def AliyunTopicThingModelPropSet : String := "/sys/+/+/thing/service/property/set"
def AliyunTopicThingModelSvcReq : String := "/sys/+/+/thing/service/+"

/-! ## Identity parser and template filling -/

/-- Go `parseUsername`: split on `&`; anything but two parts is
`ErrInvalidUsername` with both strings empty, otherwise the second part is
returned as `pk` and the first as `dn`. -/
def parseUsername (username : String) : String × String × Option Error :=
  let params := Split username '&'
  if h : params.length ≠ 2 then
    ("", "", some ErrInvalidUsername)
  else
    (params[1], params[0], none)

/-- Go `FillTopic`: for each value in turn, replace the first `+` of the
current string by that value. -/
def FillTopic (topic : String) (replaceStr : List String) : String :=
  replaceStr.foldl (fun s r => Replace1 s '+' r) topic

/-! ## Topic matcher -/

/-- Modelled from the spec: the segment-by-segment test of the Topic Matcher
(the `routermatcher` package is a dependency whose code is not part of
`handler.go`).  A wildcard template segment `+` matches any topic segment and
captures it; a literal segment must equal the topic segment exactly.  The
result is the captured values in left-to-right order, or `none` when some
segment test fails. -/
def matchSegments : List String → List String → Option (List String)
  | [], [] => some []
  | t :: ts, s :: ss =>
    if t = "+" then (matchSegments ts ss).map (fun captured => s :: captured)
    else if t = s then matchSegments ts ss
    else none
  | _, _ => none

/-- Modelled from the spec: one registered template against a candidate
topic.  Both are split into segments by `/`; if the segment counts differ
the template is skipped, otherwise the segments are compared pairwise. -/
def matchTemplate (template topic : String) : Option (List String) :=
  let ts := Split template '/'
  let ss := Split topic '/'
  if ts.length ≠ ss.length then none else matchSegments ts ss

/-- Modelled from the spec: the registered templates are tried in
registration order and the first one whose every segment test passes is the
match; with no match the result is `matched = false` (template and captures
are then the zero values). -/
def matchPaths : List String → String → String × List String × Bool
  | [], _ => ("", [], false)
  | template :: rest, topic =>
    match matchTemplate template topic with
    | some captured => (template, captured, true)
    | none => matchPaths rest topic

/-- Modelled from the spec: the `matcher.Matcher` interface value the handler
keeps in `downlinkMatcher` (the type is declared in the `routermatcher`
dependency): the registered paths in registration order together with the
lookup the implementation performs on them.  The handler itself only calls
`AddPath` and `MatchWithAnonymousParams`; theorems that take an arbitrary
`Matcher` hold for every lookup. -/
structure Matcher where
  paths : List String
  lookup : List String → String → String × List String × Bool

/-- Modelled from the spec: `register(template)` adds a template to the
registry, after the ones registered before. -/
def Matcher.AddPath (m : Matcher) (path : String) : Matcher :=
  { m with paths := m.paths ++ [path] }

/-- Go `m.MatchWithAnonymousParams(topic)`: the matched template, the
captured values and the `matched` flag. -/
def Matcher.MatchWithAnonymousParams (m : Matcher) (topic : String) :
    String × List String × Bool :=
  m.lookup m.paths topic

/-- Modelled from the spec: `matcher.NewMqttTopicMatcher()`, an empty registry
whose lookup is the segment-wise, first-registered-wins match. -/
def NewMqttTopicMatcher : Matcher := ⟨[], matchPaths⟩

/-- Go `initMatcher`: the global `downlinkMatcher` is overwritten (whatever
it held before, `none` standing for the nil interface) by a fresh matcher on
which the four templates are registered in this order.  The result is the
new value of the global. -/
def initMatcher (_downlinkMatcher : Option Matcher) : Matcher :=
  (((NewMqttTopicMatcher.AddPath FogTopicThingModelPropSet).AddPath
    FogTopicThingModelSvcReq).AddPath AliyunTopicThingModelPropSet).AddPath
    AliyunTopicThingModelSvcReq

/-! ## Payload envelopes -/

/-- Go `FogJson`.  `Id` is a `uint32` (read modulo `2^32`), `Timestamp` an
`int64`; `P` stands for `map[string]interface{}`. -/
structure FogJson (P : Type) where
  Id : Nat
  Version : String
  Method : String
  Timestamp : Int
  Params : P

/-- Go `AliyunJson`. -/
structure AliyunJson (P : Type) where
  Id : String
  Version : String
  Params : P
  Method : String

/-- The `jsoniter` calls of the handler, taken as a parameter (the JSON
library is a dependency).  An unmarshal call receives the input string and
the struct it writes into and gives the struct as the call leaves it together
with a flag that is `true` when the call returned a non-nil error; the
handler discards that flag.  `nilParams` is the nil map. -/
structure Jsoniter (P : Type) where
  nilParams : P
  UnmarshalFromStringFog : String → FogJson P → FogJson P × Bool
  UnmarshalFromStringAliyun : String → AliyunJson P → AliyunJson P × Bool
  MarshalAliyun : AliyunJson P → String

/-- Width of the Go `int` type on the 64-bit targets the gateway is built
for. -/
def intBits : Nat := 64

/-- Conversion `int(x)` of an unsigned value: two's-complement wrap into
`intBits` bits. -/
def toInt (x : Nat) : Int :=
  (((x + 2 ^ (intBits - 1)) % 2 ^ intBits : Nat) : Int) - 2 ^ (intBits - 1)

/-- Go `strconv.Itoa`: decimal digits, with a leading `-` for negative
numbers. -/
def Itoa (i : Int) : String :=
  if i < 0 then "-" ++ Nat.repr i.natAbs else Nat.repr i.natAbs

/-- The 64 characters of the standard base64 alphabet. -/
def encodeStd : List Char :=
  "ABCDEFGHIJKLMNOPQRSTUVWXYZabcdefghijklmnopqrstuvwxyz0123456789+/".data

/-- The base64 character of a 6-bit value. -/
def b64Char (n : Nat) : Char := encodeStd.getD (n % 64) 'A'

/-- Body of `base64.StdEncoding.EncodeToString` on a list of bytes: three
bytes give four characters, a final group of one or two bytes is padded with
`=`. -/
def b64Encode : List Nat → List Char
  | a :: b :: c :: rest =>
    b64Char (a / 4) :: b64Char (a % 4 * 16 + b / 16) ::
      b64Char (b % 16 * 4 + c / 64) :: b64Char (c % 64) :: b64Encode rest
  | [a, b] => [b64Char (a / 4), b64Char (a % 4 * 16 + b / 16), b64Char (b % 16 * 4), '=']
  | [a] => [b64Char (a / 4), b64Char (a % 4 * 16), '=', '=']
  | [] => []

/-- Go `base64.StdEncoding.EncodeToString` applied to the bytes of a string
(its UTF-8 encoding). -/
def EncodeToString (bytes : String) : String :=
  String.mk (b64Encode ((bytes.data.flatMap String.utf8EncodeChar).map UInt8.toNat))

/-- Go `payloadFogToAliyun`: decode into a zero `FogJson` (the decode error
is discarded), build the `AliyunJson` from it, marshal and base64-encode. -/
def payloadFogToAliyun {P : Type} (J : Jsoniter P) (fogPayload : String) (method : String) :
    String :=
  let fogJson : FogJson P := ⟨0, "", "", 0, J.nilParams⟩
  let fogJson := (J.UnmarshalFromStringFog fogPayload fogJson).1
  let aliJson : AliyunJson P :=
    { Id := Itoa (toInt (fogJson.Id % 2 ^ 32))
      Version := "1.0"
      Method := method
      Params := fogJson.Params }
  EncodeToString (J.MarshalAliyun aliJson)

/-- Go `payloadAliyunToFog`: decode into a zero `AliyunJson`, build a
`FogJson` from it, then marshal `aliJson` (as the source does) and
base64-encode. -/
def payloadAliyunToFog {P : Type} (J : Jsoniter P) (aliyunPayload : String) (method : String) :
    String :=
  let aliJson : AliyunJson P := ⟨"", "", J.nilParams, ""⟩
  let aliJson := (J.UnmarshalFromStringAliyun aliyunPayload aliJson).1
  let _fogJson : FogJson P :=
    { Id := 0
      Version := aliJson.Version
      Method := method
      Timestamp := 0
      Params := aliJson.Params }
  EncodeToString (J.MarshalAliyun aliJson)

/-! ## Orchestrator -/

/-- Go `HandleDownlink`, with the global `downlinkMatcher` and the JSON
library passed explicitly.  The result is `(rawTopic, rawPayload, err)`;
`err = none` is the nil error.  Logging is left out. -/
def HandleDownlink {P : Type} (J : Jsoniter P) (downlinkMatcher : Matcher)
    (_clientid username _password fogTopic fogPayload : String) :
    String × String × Option Error :=
  match parseUsername username with
  | (_, _, some err) => ("", "", some err)
  | (pk, dn, none) =>
    match downlinkMatcher.MatchWithAnonymousParams fogTopic with
    | (matchedTopic, params, matched) =>
      if !matched then
        ("", "", some ErrUnmatchedTopic)
      else if matchedTopic = FogTopicThingModelPropSet then
        (FillTopic AliyunTopicThingModelPropSet [pk, dn],
          payloadFogToAliyun J fogPayload "thing.service.property.set", none)
      else if matchedTopic = FogTopicThingModelSvcReq then
        if h : params.length ≠ 3 then
          ("", "", some ErrUnmatchedTopic)
        else
          (FillTopic AliyunTopicThingModelSvcReq [pk, dn, params[2]],
            payloadFogToAliyun J fogPayload ("thing.service." ++ params[2]), none)
      else
        ("", "", none)

/-- A small JSON library instance for evaluating the handler on concrete
inputs.  Its decoder accepts one text only, the empty JSON object (an opening
brace followed by a closing brace), which sets no field; every other input is
treated like text that is not JSON: an error is reported and the struct is
left as it was.  Marshalling writes the four fields in declaration order; the
params type is `Unit`, for the nil map, written `null`. -/
def tinyJson : Jsoniter Unit where
  nilParams := ()
  UnmarshalFromStringFog := fun s v => (v, s ≠ "\x7b\x7d")
  UnmarshalFromStringAliyun := fun s v => (v, s ≠ "\x7b\x7d")
  MarshalAliyun := fun a =>
    "\x7b\"id\":\"" ++ a.Id ++ "\",\"version\":\"" ++ a.Version ++
      "\",\"params\":null,\"method\":\"" ++ a.Method ++ "\"\x7d"

/-- Spec-side description of filling a template that has exactly as many
wildcard markers as there are values: with pieces `p0 .. pk` (the text
between the markers) and values `v1 .. vk` it is
`p0 ++ v1 ++ p1 ++ ... ++ vk ++ pk`. -/
def interleave : List String → List String → String
  | p :: ps, v :: vs => p ++ v ++ interleave ps vs
  | p :: _, [] => p
  | [], _ => ""

/-- The destination envelope that `payloadFogToAliyun` builds from the source
envelope left by the decoder: lines `aliJson.Id = ...` to
`aliJson.Params = ...` of the source. -/
def aliJsonOf {P : Type} (fogJson : FogJson P) (method : String) : AliyunJson P :=
  { Id := Itoa (toInt (fogJson.Id % 2 ^ 32))
    Version := "1.0"
    Method := method
    Params := fogJson.Params }

/-- Value of a list of decimal digit characters, most significant first,
continuing from the accumulator `acc`. -/
def digitsValue (acc : Nat) (cs : List Char) : Nat :=
  cs.foldl (fun a c => a * 10 + (c.toNat - '0'.toNat)) acc

/-- Spec-side reading of a canonical decimal string: a non-empty string of
digit characters `0` .. `9` is read as the number it denotes, anything else
(empty, signed, other characters) is not a number. -/
def parseDecimal (s : String) : Option Nat :=
  if s.data ≠ [] ∧ s.data.all Char.isDigit = true then some (digitsValue 0 s.data) else none

/-- Spec-side description of filling with any number of values: with pieces
`p0 .. pk` of the template (the text between its markers) and values
`v1 .. vn`, the i-th marker is replaced by `vi` while values last and stays
`+` afterwards; values beyond the k-th are not used. -/
def fillLeftToRight : List String → List String → String
  | [], _ => ""
  | [p], _ => p
  | p :: q :: ps, [] => p ++ "+" ++ fillLeftToRight (q :: ps) []
  | p :: q :: ps, v :: vs => p ++ v ++ fillLeftToRight (q :: ps) vs

/-- Two segment lists can be matched by one and the same topic only if they
have the same length and, position by position, one of the two segments is
the wildcard `+` or both are the same literal. -/
def segsOverlap : List String → List String → Bool
  | [], [] => true
  | a :: as, b :: bs => (decide (a = "+") || decide (b = "+") || decide (a = b)) && segsOverlap as bs
  | _, _ => false

/-- Go `CloudGtwDownlinkReq`, the decoded request body. -/
structure CloudGtwDownlinkReq where
  FogTopic : String
  FogPayload : String
  RawClientid : String
  RawUsername : String
  RawPassword : String

/-- Go `Handler`, as a step on the global `downlinkMatcher`: `initMatcher()`
is run, then `HandleDownlink` on the fields of the request; a non-nil error
gives status 400 with an empty body, otherwise status 200 and the marshalled
pair of destination topic and payload.  The request is taken as already
decoded (the decode error is discarded by the source) and `marshalResp`
stands for `jsoniter.Marshal` of the response struct.  The result is the
global after the call, the status and the body. -/
def Handler {P : Type} (J : Jsoniter P) (marshalResp : String → String → String)
    (downlinkMatcher : Option Matcher) (req : CloudGtwDownlinkReq) :
    Option Matcher × Nat × String :=
  let downlinkMatcher := initMatcher downlinkMatcher
  match HandleDownlink J downlinkMatcher req.RawClientid req.RawUsername req.RawPassword
      req.FogTopic req.FogPayload with
  | (_, _, some _) => (some downlinkMatcher, 400, "")
  | (topic, payload, none) => (some downlinkMatcher, 200, marshalResp topic payload)

/-- One `Handler` call in flight: its decoded request, the number of its
statements that have run so far, and the outcome of its `HandleDownlink` once
that statement has run. -/
structure Call where
  req : CloudGtwDownlinkReq
  pc : Nat
  result : Option (String × String × Option Error)

/-- The next statement of a `Handler` call, run on the package global
`downlinkMatcher`.  Statement 0 is `downlinkMatcher = NewMqttTopicMatcher()`,
statements 1 to 4 are the four `downlinkMatcher.AddPath(..)` of `initMatcher`
(each reads the global as it is at that moment), statement 5 is the call of
`HandleDownlink`, which reads the global and does not write it.  A call whose
six statements have run does nothing more.  The global is `none` (the nil
interface) only before the first statement 0 of any call; a statement that
would use it then has no effect here. -/
def stepCall {P : Type} (J : Jsoniter P) (g : Option Matcher) (c : Call) :
    Option Matcher × Call :=
  match c.pc with
  | 0 => (some NewMqttTopicMatcher, { c with pc := 1 })
  | 1 => (g.map fun m => m.AddPath FogTopicThingModelPropSet, { c with pc := 2 })
  | 2 => (g.map fun m => m.AddPath FogTopicThingModelSvcReq, { c with pc := 3 })
  | 3 => (g.map fun m => m.AddPath AliyunTopicThingModelPropSet, { c with pc := 4 })
  | 4 => (g.map fun m => m.AddPath AliyunTopicThingModelSvcReq, { c with pc := 5 })
  | 5 =>
    (g, { c with
      pc := 6
      result := g.map fun m =>
        HandleDownlink J m c.req.RawClientid c.req.RawUsername c.req.RawPassword
          c.req.FogTopic c.req.FogPayload })
  | _ => (g, c)

/-- The process serving requests: the package global `downlinkMatcher` and
the `Handler` calls in flight.  The source takes no lock, so statements of
different calls may run in any order. -/
structure World where
  downlinkMatcher : Option Matcher
  calls : List Call

/-- The call with index `i` runs its next statement. -/
def World.step {P : Type} (J : Jsoniter P) (w : World) (i : Nat) : World :=
  match w.calls[i]? with
  | none => w
  | some c => ⟨(stepCall J w.downlinkMatcher c).1, w.calls.set i (stepCall J w.downlinkMatcher c).2⟩

/-- The statements run in the order given by the schedule, a list of call
indices. -/
def World.run {P : Type} (J : Jsoniter P) (w : World) (schedule : List Nat) : World :=
  schedule.foldl (World.step J) w

/-- The schedule in which the calls listed in `order` run one after another,
each one its six statements without a statement of another call in
between. -/
def oneAfterAnother (order : List Nat) : List Nat :=
  order.flatMap fun i => List.replicate 6 i

/-- The request of the first end-to-end scenario, with the source prefix
`fogcloud`. -/
def propSetReq : CloudGtwDownlinkReq :=
  { FogTopic := "fogcloud/x/y/thing/down/property/set"
    FogPayload := "\x7b\x7d"
    RawClientid := "c"
    RawUsername := "dev1&pk1"
    RawPassword := "pw" }

/-- Two `Handler` calls that have not started, both with the request
`propSetReq`, and the package global as given. -/
def twoCalls (g : Option Matcher) : World :=
  ⟨g, [⟨propSetReq, 0, none⟩, ⟨propSetReq, 0, none⟩]⟩

/-! ## Lemmas on the string primitives -/

theorem countChar_eq_zero_iff (c : Char) (s : List Char) : countChar c s = 0 ↔ c ∉ s := by
  induction s with
  | nil => simp [countChar]
  | cons x xs ih =>
    by_cases hx : x = c
    · simp [countChar, hx]
    · have hx2 : ¬ c = x := fun h => hx h.symm
      simp [countChar, hx, hx2, ih]

theorem countChar_append (c : Char) (s t : List Char) :
    countChar c (s ++ t) = countChar c s + countChar c t := by
  induction s with
  | nil => simp [countChar]
  | cons x xs ih =>
    by_cases hx : x = c
    · simp [countChar, hx, ih]; omega
    · simp [countChar, hx, ih]

theorem replaceFirst_of_not_mem (c : Char) (v s : List Char) (h : c ∉ s) :
    replaceFirst c v s = s := by
  induction s with
  | nil => rfl
  | cons x xs ih =>
    have hx : ¬ x = c := fun e => h (by simp [e])
    have hxs : c ∉ xs := fun e => h (by simp [e])
    simp [replaceFirst, hx, ih hxs]

theorem replaceFirst_append (c : Char) (v q r : List Char) (h : c ∉ q) :
    replaceFirst c v (q ++ r) = q ++ replaceFirst c v r := by
  induction q with
  | nil => rfl
  | cons x xs ih =>
    have hx : ¬ x = c := fun e => h (by simp [e])
    have hxs : c ∉ xs := fun e => h (by simp [e])
    simp [replaceFirst, hx, ih hxs]

theorem replaceFirst_cons_self (c : Char) (v r : List Char) :
    replaceFirst c v (c :: r) = v ++ r := by
  simp [replaceFirst]

theorem splitAux_append (c : Char) (q r cur : List Char) (h : c ∉ q) :
    splitAux c (q ++ r) cur = splitAux c r (q.reverse ++ cur) := by
  induction q generalizing cur with
  | nil => rfl
  | cons x xs ih =>
    have hx : ¬ x = c := fun e => h (by simp [e])
    have hxs : c ∉ xs := fun e => h (by simp [e])
    simp [splitAux, hx, ih _ hxs]

theorem splitAux_of_not_mem (c : Char) (q cur : List Char) (h : c ∉ q) :
    splitAux c q cur = [cur.reverse ++ q] := by
  have := splitAux_append c q [] cur h
  simpa [splitAux] using this

theorem splitAux_sep (c : Char) (q r cur : List Char) (h : c ∉ q) :
    splitAux c (q ++ c :: r) cur = (cur.reverse ++ q) :: splitAux c r [] := by
  rw [splitAux_append c q _ cur h]
  simp [splitAux]

theorem splitAux_length (c : Char) (s cur : List Char) :
    (splitAux c s cur).length = countChar c s + 1 := by
  induction s generalizing cur with
  | nil => rfl
  | cons x xs ih =>
    by_cases hx : x = c
    · simp [splitAux, countChar, hx, ih]
    · simp [splitAux, countChar, hx, ih]

theorem splitAux_ne_nil (c : Char) (s cur : List Char) : splitAux c s cur ≠ [] := by
  intro h
  have := splitAux_length c s cur
  simp [h] at this

theorem Split_length (s : String) (c : Char) : (Split s c).length = countChar c s.data + 1 := by
  simp [Split, splitAux_length]

/-! ## Lemmas on `FillTopic` -/

theorem FillTopic_nil (t : String) : FillTopic t [] = t := rfl

theorem FillTopic_cons (t v : String) (vs : List String) :
    FillTopic t (v :: vs) = FillTopic (Replace1 t '+' v) vs := rfl

theorem Replace1_data (t v : String) (c : Char) :
    (Replace1 t c v).data = replaceFirst c v.data t.data := rfl

theorem FillTopic_append (q r : String) (vs : List String) (h : '+' ∉ q.data) :
    FillTopic (q ++ r) vs = q ++ FillTopic r vs := by
  induction vs generalizing r with
  | nil => rfl
  | cons v vs ih =>
    rw [FillTopic_cons, FillTopic_cons, ← ih]
    congr 1
    apply String.ext
    simp [Replace1_data, replaceFirst_append _ _ _ _ h]

theorem FillTopic_plus (q v r : String) (vs : List String) (h : '+' ∉ q.data) :
    FillTopic (q ++ "+" ++ r) (v :: vs) = FillTopic (q ++ v ++ r) vs := by
  rw [FillTopic_cons]
  congr 1
  apply String.ext
  have e : ("+" : String).data = ['+'] := rfl
  simp [Replace1_data, e, replaceFirst_append _ _ _ _ h, replaceFirst_cons_self]

theorem mem_dropLast_cons {α : Type} (v w : α) (vs : List α) (x : α)
    (h : x ∈ (w :: vs).dropLast) : x ∈ (v :: w :: vs).dropLast := by
  simp only [List.dropLast_cons₂]
  exact List.mem_cons_of_mem _ h

theorem fill_interleave_aux (t : List Char) :
    ∀ (cur : List Char) (vs : List String), '+' ∉ cur →
      (∀ v ∈ vs.dropLast, '+' ∉ v.data) → countChar '+' t = vs.length →
      FillTopic (String.mk (cur.reverse ++ t)) vs =
        interleave ((splitAux '+' t cur).map String.mk) vs := by
  induction t with
  | nil =>
    intro cur vs _ _ hk
    have hvs : vs = [] := by
      cases vs with
      | nil => rfl
      | cons v vs => simp [countChar] at hk
    subst hvs
    simp [splitAux, interleave, FillTopic_nil]
  | cons x xs ih =>
    intro cur vs hcur hv hk
    by_cases hx : x = '+'
    · subst hx
      cases vs with
      | nil => simp [countChar] at hk
      | cons v vs =>
        have hk2 : countChar '+' xs = vs.length := by
          simpa [countChar] using hk
        have hv2 : ∀ w ∈ vs.dropLast, '+' ∉ w.data := by
          intro w hw
          cases vs with
          | nil => simp at hw
          | cons u us => exact hv w (mem_dropLast_cons v u us w hw)
        have hrec := ih [] vs (by simp) hv2 hk2
        have hsplit : splitAux '+' ('+' :: xs) cur = cur.reverse :: splitAux '+' xs [] := by
          simp [splitAux]
        have hcur2 : '+' ∉ (String.mk cur.reverse).data := by simpa using hcur
        have hform : String.mk (cur.reverse ++ '+' :: xs) =
            String.mk cur.reverse ++ "+" ++ String.mk xs := by
          apply String.ext
          have e : ("+" : String).data = ['+'] := rfl
          simp [e]
        rw [hsplit, hform, FillTopic_plus _ _ _ _ hcur2]
        simp only [List.map_cons, interleave]
        cases vs with
        | nil =>
          have hnone : '+' ∉ xs := (countChar_eq_zero_iff _ _).1 (by simpa using hk2)
          simp [FillTopic_nil, splitAux_of_not_mem _ _ _ hnone, interleave]
        | cons u us =>
          have hvfree : '+' ∉ v.data := hv v (by simp)
          have hpre : '+' ∉ (String.mk cur.reverse ++ v).data := by
            simp only [String.data_append, List.mem_append, not_or]
            exact ⟨hcur2, hvfree⟩
          rw [FillTopic_append _ _ _ hpre]
          simp only [List.reverse_nil, List.nil_append] at hrec
          rw [hrec]
    · have hk2 : countChar '+' xs = vs.length := by
        simpa [countChar, hx] using hk
      have hcur2 : '+' ∉ x :: cur := by
        simp only [List.mem_cons, not_or]
        exact ⟨fun e => hx e.symm, hcur⟩
      have hrec := ih (x :: cur) vs hcur2 hv hk2
      have hsplit : splitAux '+' (x :: xs) cur = splitAux '+' xs (x :: cur) := by
        simp [splitAux, hx]
      rw [hsplit, ← hrec]
      simp

/-! ## Lemmas on `Split` and `parseUsername` -/

theorem Split_of_not_mem (q : String) (c : Char) (h : c ∉ q.data) : Split q c = [q] := by
  simp [Split, splitAux_of_not_mem _ _ _ h]

theorem Split_append_sep (q r : String) (c : Char) (h : c ∉ q.data) :
    Split (q ++ String.singleton c ++ r) c = q :: Split r c := by
  have e : (String.singleton c).data = [c] := rfl
  simp [Split, e, splitAux_sep _ _ _ _ h]

theorem parseUsername_of_two (u a b : String) (h : Split u '&' = [a, b]) :
    parseUsername u = (b, a, none) := by
  simp [parseUsername, h]

theorem parseUsername_of_length_ne (u : String) (h : (Split u '&').length ≠ 2) :
    parseUsername u = ("", "", some Error.ErrInvalidUsername) := by
  simp [parseUsername, h]

theorem parseUsername_of_length_eq (u : String) (h : (Split u '&').length = 2) :
    ∃ pk dn, parseUsername u = (pk, dn, none) := by
  refine ⟨(Split u '&')[1], (Split u '&')[0], ?_⟩
  simp [parseUsername, h]

theorem parseUsername_amp (a b : String) (ha : '&' ∉ a.data) (hb : '&' ∉ b.data) :
    parseUsername (a ++ "&" ++ b) = (b, a, none) := by
  apply parseUsername_of_two
  have e : ("&" : String) = String.singleton '&' := rfl
  rw [e, Split_append_sep _ _ _ ha, Split_of_not_mem _ _ hb]

/-! ## Lemmas on the registry built by `initMatcher` -/

theorem Split_fog_propset_topic (x y : String) (hx : '/' ∉ x.data) (hy : '/' ∉ y.data) :
    Split ("fogcloud/" ++ x ++ "/" ++ y ++ "/thing/down/property/set") '/' =
      ["fogcloud", x, y, "thing", "down", "property", "set"] := by
  have e : "fogcloud/" ++ x ++ "/" ++ y ++ "/thing/down/property/set" =
      "fogcloud" ++ String.singleton '/' ++ (x ++ String.singleton '/' ++
        (y ++ String.singleton '/' ++ "thing/down/property/set")) := by
    apply String.ext
    simp [String.data_append]
  rw [e, Split_append_sep _ _ _ (by decide), Split_append_sep _ _ _ hx, Split_append_sep _ _ _ hy]
  have : Split "thing/down/property/set" '/' = ["thing", "down", "property", "set"] := by decide
  rw [this]

theorem Split_aliyun_propset_topic (x y : String) (hx : '/' ∉ x.data) (hy : '/' ∉ y.data) :
    Split ("/sys/" ++ x ++ "/" ++ y ++ "/thing/service/property/set") '/' =
      ["", "sys", x, y, "thing", "service", "property", "set"] := by
  have e : "/sys/" ++ x ++ "/" ++ y ++ "/thing/service/property/set" =
      "" ++ String.singleton '/' ++ ("sys" ++ String.singleton '/' ++
        (x ++ String.singleton '/' ++
          (y ++ String.singleton '/' ++ "thing/service/property/set"))) := by
    apply String.ext
    simp [String.data_append]
  rw [e, Split_append_sep _ _ _ (by decide), Split_append_sep _ _ _ (by decide),
    Split_append_sep _ _ _ hx, Split_append_sep _ _ _ hy]
  have : Split "thing/service/property/set" '/' = ["thing", "service", "property", "set"] := by
    decide
  rw [this]

theorem Split_aliyun_svc_topic (x y z : String) (hx : '/' ∉ x.data) (hy : '/' ∉ y.data)
    (hz : '/' ∉ z.data) :
    Split ("/sys/" ++ x ++ "/" ++ y ++ "/thing/service/" ++ z) '/' =
      ["", "sys", x, y, "thing", "service", z] := by
  have e : "/sys/" ++ x ++ "/" ++ y ++ "/thing/service/" ++ z =
      "" ++ String.singleton '/' ++ ("sys" ++ String.singleton '/' ++
        (x ++ String.singleton '/' ++
          (y ++ String.singleton '/' ++ ("thing" ++ String.singleton '/' ++
            ("service" ++ String.singleton '/' ++ z))))) := by
    apply String.ext
    simp [String.data_append]
  rw [e, Split_append_sep _ _ _ (by decide), Split_append_sep _ _ _ (by decide),
    Split_append_sep _ _ _ hx, Split_append_sep _ _ _ hy, Split_append_sep _ _ _ (by decide),
    Split_append_sep _ _ _ (by decide), Split_of_not_mem _ _ hz]

theorem Split_FogPropSet : Split FogTopicThingModelPropSet '/' =
    ["fogcloud", "+", "+", "thing", "down", "property", "set"] := by decide
theorem Split_FogSvcReq : Split FogTopicThingModelSvcReq '/' =
    ["fogcloud", "+", "+", "thing", "down", "service", "+"] := by decide
theorem Split_AliyunPropSet : Split AliyunTopicThingModelPropSet '/' =
    ["", "sys", "+", "+", "thing", "service", "property", "set"] := by decide
theorem Split_AliyunSvcReq : Split AliyunTopicThingModelSvcReq '/' =
    ["", "sys", "+", "+", "thing", "service", "+"] := by decide

theorem matchTemplate_eq (template topic : String) (ts ss : List String)
    (ht : Split template '/' = ts) (hs : Split topic '/' = ss) :
    matchTemplate template topic =
      if ts.length ≠ ss.length then none else matchSegments ts ss := by
  subst ht hs
  rfl

theorem match_fog_propset_topic (prev : Option Matcher) (x y : String)
    (hx : '/' ∉ x.data) (hy : '/' ∉ y.data) :
    (initMatcher prev).MatchWithAnonymousParams
        ("fogcloud/" ++ x ++ "/" ++ y ++ "/thing/down/property/set") =
      (FogTopicThingModelPropSet, [x, y], true) := by
  have h : matchTemplate FogTopicThingModelPropSet
      ("fogcloud/" ++ x ++ "/" ++ y ++ "/thing/down/property/set") = some [x, y] := by
    rw [matchTemplate_eq _ _ _ _ Split_FogPropSet (Split_fog_propset_topic x y hx hy)]
    simp [matchSegments]
  simp [initMatcher, Matcher.MatchWithAnonymousParams, Matcher.AddPath, NewMqttTopicMatcher,
    matchPaths, h]

theorem match_aliyun_propset_topic (prev : Option Matcher) (x y : String)
    (hx : '/' ∉ x.data) (hy : '/' ∉ y.data) :
    (initMatcher prev).MatchWithAnonymousParams
        ("/sys/" ++ x ++ "/" ++ y ++ "/thing/service/property/set") =
      (AliyunTopicThingModelPropSet, [x, y], true) := by
  have hs := Split_aliyun_propset_topic x y hx hy
  have h1 : matchTemplate FogTopicThingModelPropSet
      ("/sys/" ++ x ++ "/" ++ y ++ "/thing/service/property/set") = none := by
    rw [matchTemplate_eq _ _ _ _ Split_FogPropSet (hs)]
    simp [matchSegments]
  have h2 : matchTemplate FogTopicThingModelSvcReq
      ("/sys/" ++ x ++ "/" ++ y ++ "/thing/service/property/set") = none := by
    rw [matchTemplate_eq _ _ _ _ Split_FogSvcReq (hs)]
    simp [matchSegments]
  have h3 : matchTemplate AliyunTopicThingModelPropSet
      ("/sys/" ++ x ++ "/" ++ y ++ "/thing/service/property/set") = some [x, y] := by
    rw [matchTemplate_eq _ _ _ _ Split_AliyunPropSet (hs)]
    simp [matchSegments]
  simp [initMatcher, Matcher.MatchWithAnonymousParams, Matcher.AddPath, NewMqttTopicMatcher,
    matchPaths, h1, h2, h3]

theorem match_aliyun_svc_topic (prev : Option Matcher) (x y z : String)
    (hx : '/' ∉ x.data) (hy : '/' ∉ y.data) (hz : '/' ∉ z.data) :
    (initMatcher prev).MatchWithAnonymousParams
        ("/sys/" ++ x ++ "/" ++ y ++ "/thing/service/" ++ z) =
      (AliyunTopicThingModelSvcReq, [x, y, z], true) := by
  have hs := Split_aliyun_svc_topic x y z hx hy hz
  have h1 : matchTemplate FogTopicThingModelPropSet
      ("/sys/" ++ x ++ "/" ++ y ++ "/thing/service/" ++ z) = none := by
    rw [matchTemplate_eq _ _ _ _ Split_FogPropSet (hs)]
    simp [matchSegments]
  have h2 : matchTemplate FogTopicThingModelSvcReq
      ("/sys/" ++ x ++ "/" ++ y ++ "/thing/service/" ++ z) = none := by
    rw [matchTemplate_eq _ _ _ _ Split_FogSvcReq (hs)]
    simp [matchSegments]
  have h3 : matchTemplate AliyunTopicThingModelPropSet
      ("/sys/" ++ x ++ "/" ++ y ++ "/thing/service/" ++ z) = none := by
    rw [matchTemplate_eq _ _ _ _ Split_AliyunPropSet (hs)]
    simp [matchSegments]
  have h4 : matchTemplate AliyunTopicThingModelSvcReq
      ("/sys/" ++ x ++ "/" ++ y ++ "/thing/service/" ++ z) = some [x, y, z] := by
    rw [matchTemplate_eq _ _ _ _ Split_AliyunSvcReq (hs)]
    simp [matchSegments]
  simp [initMatcher, Matcher.MatchWithAnonymousParams, Matcher.AddPath, NewMqttTopicMatcher,
    matchPaths, h1, h2, h3, h4]

theorem matchPaths_of_length_ne (paths : List String) (topic : String)
    (h : ∀ t ∈ paths, (Split t '/').length ≠ (Split topic '/').length) :
    matchPaths paths topic = ("", [], false) := by
  induction paths with
  | nil => rfl
  | cons t rest ih =>
    have ht : matchTemplate t topic = none := by
      have := h t (by simp)
      simp [matchTemplate, this]
    have hrest := ih (fun u hu => h u (by simp [hu]))
    simp [matchPaths, ht, hrest]

theorem initMatcher_lookup (prev : Option Matcher) (topic : String) :
    (initMatcher prev).MatchWithAnonymousParams topic =
      matchPaths (initMatcher prev).paths topic := rfl

/-! ## Lemmas on filling the two Aliyun templates -/

theorem FillTopic_AliyunPropSet (pk dn : String) (hpk : '+' ∉ pk.data) :
    FillTopic AliyunTopicThingModelPropSet [pk, dn] =
      "/sys/" ++ pk ++ "/" ++ dn ++ "/thing/service/property/set" := by
  have e : AliyunTopicThingModelPropSet =
      "/sys/" ++ "+" ++ ("/" ++ "+" ++ "/thing/service/property/set") := by decide
  have h1 : '+' ∉ ("/sys/" : String).data := by decide
  have h2 : '+' ∉ ("/sys/" ++ pk : String).data := by
    simp only [String.data_append, List.mem_append, not_or]
    exact ⟨h1, hpk⟩
  have h3 : '+' ∉ ("/" : String).data := by decide
  rw [e, FillTopic_plus _ _ _ _ h1, FillTopic_append _ _ _ h2, FillTopic_plus _ _ _ _ h3,
    FillTopic_nil]
  simp [String.append_assoc]

theorem FillTopic_AliyunSvcReq (pk dn s : String) (hpk : '+' ∉ pk.data) (hdn : '+' ∉ dn.data) :
    FillTopic AliyunTopicThingModelSvcReq [pk, dn, s] =
      "/sys/" ++ pk ++ "/" ++ dn ++ "/thing/service/" ++ s := by
  have e : AliyunTopicThingModelSvcReq =
      "/sys/" ++ "+" ++ ("/" ++ "+" ++ ("/thing/service/" ++ "+" ++ "")) := by decide
  have h1 : '+' ∉ ("/sys/" : String).data := by decide
  have h2 : '+' ∉ ("/sys/" ++ pk : String).data := by
    simp only [String.data_append, List.mem_append, not_or]
    exact ⟨h1, hpk⟩
  have h3 : '+' ∉ ("/" : String).data := by decide
  have h4 : '+' ∉ ("/" ++ dn : String).data := by
    simp only [String.data_append, List.mem_append, not_or]
    exact ⟨h3, hdn⟩
  have h5 : '+' ∉ ("/thing/service/" : String).data := by decide
  rw [e, FillTopic_plus _ _ _ _ h1, FillTopic_append _ _ _ h2, FillTopic_plus _ _ _ _ h3,
    FillTopic_append _ _ _ h4, FillTopic_plus _ _ _ _ h5, FillTopic_nil]
  simp [String.append_assoc]

/-! ## Lemmas on the branches of `HandleDownlink` -/

theorem parseUsername_cases (username : String) (h : (parseUsername username).2.2 = none) :
    ∃ pk dn, parseUsername username = (pk, dn, none) := by
  rcases hp : parseUsername username with ⟨pk, dn, e⟩
  rw [hp] at h
  exact ⟨pk, dn, by simpa using h⟩

theorem HandleDownlink_bad_username {P : Type} (J : Jsoniter P) (m : Matcher)
    (cid username pw topic p : String) (h : (Split username '&').length ≠ 2) :
    HandleDownlink J m cid username pw topic p = ("", "", some Error.ErrInvalidUsername) := by
  simp [HandleDownlink, parseUsername_of_length_ne username h]

theorem HandleDownlink_not_matched {P : Type} (J : Jsoniter P) (m : Matcher)
    (cid username pw topic p pk dn : String) (hp : parseUsername username = (pk, dn, none))
    (hm : (m.MatchWithAnonymousParams topic).2.2 = false) :
    HandleDownlink J m cid username pw topic p = ("", "", some Error.ErrUnmatchedTopic) := by
  rcases hr : m.MatchWithAnonymousParams topic with ⟨t, ps, b⟩
  rw [hr] at hm
  simp only at hm
  subst hm
  simp [HandleDownlink, hp, hr]

theorem HandleDownlink_propset {P : Type} (J : Jsoniter P) (m : Matcher)
    (cid username pw topic p pk dn : String) (params : List String)
    (hp : parseUsername username = (pk, dn, none))
    (hm : m.MatchWithAnonymousParams topic = (FogTopicThingModelPropSet, params, true)) :
    HandleDownlink J m cid username pw topic p =
      (FillTopic AliyunTopicThingModelPropSet [pk, dn],
        payloadFogToAliyun J p "thing.service.property.set", none) := by
  simp [HandleDownlink, hp, hm]

theorem HandleDownlink_svcreq {P : Type} (J : Jsoniter P) (m : Matcher)
    (cid username pw topic p pk dn x y s : String)
    (hp : parseUsername username = (pk, dn, none))
    (hm : m.MatchWithAnonymousParams topic = (FogTopicThingModelSvcReq, [x, y, s], true)) :
    HandleDownlink J m cid username pw topic p =
      (FillTopic AliyunTopicThingModelSvcReq [pk, dn, s],
        payloadFogToAliyun J p ("thing.service." ++ s), none) := by
  have hne : ¬ FogTopicThingModelSvcReq = FogTopicThingModelPropSet := by decide
  simp [HandleDownlink, hp, hm, hne]

theorem HandleDownlink_other {P : Type} (J : Jsoniter P) (m : Matcher)
    (cid username pw topic p pk dn t : String) (params : List String)
    (hp : parseUsername username = (pk, dn, none))
    (hm : m.MatchWithAnonymousParams topic = (t, params, true))
    (h1 : t ≠ FogTopicThingModelPropSet) (h2 : t ≠ FogTopicThingModelSvcReq) :
    HandleDownlink J m cid username pw topic p = ("", "", none) := by
  simp [HandleDownlink, hp, hm, h1, h2]

/-! ## Lemmas on the decimal rendering of the envelope id -/

theorem digitChar_spec :
    ∀ d, d < 10 → (Nat.digitChar d).isDigit = true ∧
      (Nat.digitChar d).toNat - '0'.toNat = d := by
  decide

theorem digitsValue_cons (acc : Nat) (c : Char) (cs : List Char) :
    digitsValue acc (c :: cs) = digitsValue (acc * 10 + (c.toNat - '0'.toNat)) cs := rfl

theorem digitsValue_acc (acc : Nat) (cs : List Char) :
    digitsValue acc cs = acc * 10 ^ cs.length + digitsValue 0 cs := by
  induction cs generalizing acc with
  | nil => simp [digitsValue]
  | cons c cs ih =>
    rw [digitsValue_cons, ih, digitsValue_cons, ih (0 * 10 + (c.toNat - '0'.toNat))]
    simp only [List.length_cons, pow_succ]
    ring

theorem toDigitsCore_value (fuel : Nat) :
    ∀ (n : Nat) (ds : List Char), n < fuel →
      digitsValue 0 (Nat.toDigitsCore 10 fuel n ds) = n * 10 ^ ds.length + digitsValue 0 ds := by
  induction fuel with
  | zero => intro n ds h; omega
  | succ fuel ih =>
    intro n ds h
    have hd := (digitChar_spec (n % 10) (Nat.mod_lt _ (by decide))).2
    by_cases h0 : n / 10 = 0
    · have hn : n % 10 = n := by omega
      simp only [Nat.toDigitsCore, h0, if_true]
      rw [digitsValue_cons, digitsValue_acc, hd, hn]
      simp
    · simp only [Nat.toDigitsCore, h0, if_false]
      rw [ih (n / 10) _ (by omega), digitsValue_cons, digitsValue_acc _ ds, hd]
      simp only [List.length_cons, pow_succ]
      have hn : n = n / 10 * 10 + n % 10 := by omega
      generalize n / 10 = q at hn ⊢
      generalize n % 10 = r at hn ⊢
      subst hn
      ring

theorem toDigitsCore_all_digits (fuel : Nat) :
    ∀ (n : Nat) (ds : List Char), ds.all Char.isDigit = true →
      (Nat.toDigitsCore 10 fuel n ds).all Char.isDigit = true := by
  induction fuel with
  | zero => intro n ds h; simpa [Nat.toDigitsCore] using h
  | succ fuel ih =>
    intro n ds h
    have hd := (digitChar_spec (n % 10) (Nat.mod_lt _ (by decide))).1
    have hcons : (Nat.digitChar (n % 10) :: ds).all Char.isDigit = true := by
      simp only [List.all_cons, hd, h, Bool.and_self]
    by_cases h0 : n / 10 = 0
    · simpa only [Nat.toDigitsCore, h0, if_true] using hcons
    · simp only [Nat.toDigitsCore, h0, if_false]
      exact ih _ _ hcons

theorem toDigitsCore_ne_nil (fuel n : Nat) (ds : List Char) (h : n < fuel) :
    Nat.toDigitsCore 10 fuel n ds ≠ [] := by
  induction fuel generalizing n ds with
  | zero => omega
  | succ fuel ih =>
    by_cases h0 : n / 10 = 0
    · simp [Nat.toDigitsCore, h0]
    · simp only [Nat.toDigitsCore, h0, if_false]
      exact ih _ _ (by omega)

theorem repr_data (n : Nat) : (Nat.repr n).data = Nat.toDigitsCore 10 (n + 1) n [] := rfl

theorem parseDecimal_repr (n : Nat) : parseDecimal (Nat.repr n) = some n := by
  have h1 := toDigitsCore_ne_nil (n + 1) n [] (by omega)
  have h2 := toDigitsCore_all_digits (n + 1) n [] rfl
  have h3 := toDigitsCore_value (n + 1) n [] (by omega)
  simp only [parseDecimal, repr_data]
  rw [if_pos ⟨h1, h2⟩, h3]
  simp [digitsValue]

theorem minus_not_mem_repr (n : Nat) : '-' ∉ (Nat.repr n).data := by
  intro hmem
  have h2 := toDigitsCore_all_digits (n + 1) n [] rfl
  rw [repr_data] at hmem
  have := (List.all_eq_true.1 h2) _ hmem
  exact absurd this (by decide)

theorem toInt_of_lt (x : Nat) (h : x < 2 ^ 32) : toInt x = (x : Int) := by
  unfold toInt intBits
  have hlt : x + 2 ^ (64 - 1) < 2 ^ 64 := by
    have : (2 : Nat) ^ 32 + 2 ^ (64 - 1) < 2 ^ 64 := by norm_num
    omega
  rw [Nat.mod_eq_of_lt hlt]
  push_cast
  ring

theorem Itoa_toInt_of_lt (x : Nat) (h : x < 2 ^ 32) : Itoa (toInt x) = Nat.repr x := by
  rw [toInt_of_lt x h]
  simp [Itoa]

theorem HandleDownlink_svcreq_arity {P : Type} (J : Jsoniter P) (m : Matcher)
    (cid username pw topic p pk dn : String) (params : List String)
    (hp : parseUsername username = (pk, dn, none))
    (hm : m.MatchWithAnonymousParams topic = (FogTopicThingModelSvcReq, params, true))
    (hlen : params.length ≠ 3) :
    HandleDownlink J m cid username pw topic p = ("", "", some Error.ErrUnmatchedTopic) := by
  have hne : ¬ FogTopicThingModelSvcReq = FogTopicThingModelPropSet := by decide
  simp [HandleDownlink, hp, hm, hne, hlen]

/-! ## Lemmas on filling with any number of values -/

theorem FillTopic_of_not_mem (q : String) (vs : List String) (h : '+' ∉ q.data) :
    FillTopic q vs = q := by
  induction vs with
  | nil => rfl
  | cons v vs ih =>
    rw [FillTopic_cons]
    have e : Replace1 q '+' v = q := by
      apply String.ext
      simp [Replace1_data, replaceFirst_of_not_mem _ _ _ h]
    rw [e, ih]

theorem fill_leftToRight_aux (t : List Char) :
    ∀ (cur : List Char) (vs : List String), '+' ∉ cur →
      (∀ v ∈ vs, '+' ∉ v.data) →
      FillTopic (String.mk (cur.reverse ++ t)) vs =
        fillLeftToRight ((splitAux '+' t cur).map String.mk) vs := by
  induction t with
  | nil =>
    intro cur vs hcur _
    have hfree : '+' ∉ (String.mk (cur.reverse ++ [])).data := by simpa using hcur
    rw [FillTopic_of_not_mem _ _ hfree]
    simp [splitAux, fillLeftToRight]
  | cons x xs ih =>
    intro cur vs hcur hv
    by_cases hx : x = '+'
    · subst hx
      obtain ⟨q, qs, hq⟩ : ∃ q qs, splitAux '+' xs [] = q :: qs := by
        cases hs : splitAux '+' xs [] with
        | nil => exact absurd hs (splitAux_ne_nil _ _ _)
        | cons q qs => exact ⟨q, qs, rfl⟩
      have hsplit : splitAux '+' ('+' :: xs) cur = cur.reverse :: q :: qs := by
        simp [splitAux, hq]
      have hcur2 : '+' ∉ (String.mk cur.reverse).data := by simpa using hcur
      have hform : String.mk (cur.reverse ++ '+' :: xs) =
          String.mk cur.reverse ++ "+" ++ String.mk xs := by
        apply String.ext
        have e : ("+" : String).data = ['+'] := rfl
        simp [e]
      rw [hsplit, hform]
      cases vs with
      | nil =>
        have hrec := ih [] [] (by simp) (by simp)
        simp only [List.reverse_nil, List.nil_append, hq, FillTopic_nil] at hrec
        simp only [List.map_cons, fillLeftToRight, FillTopic_nil]
        simp only [List.map_cons] at hrec
        rw [← hrec]
      | cons v vs =>
        have hvfree : '+' ∉ v.data := hv v (by simp)
        have hv2 : ∀ w ∈ vs, '+' ∉ w.data := fun w hw => hv w (by simp [hw])
        have hrec := ih [] vs (by simp) hv2
        simp only [List.reverse_nil, List.nil_append, hq] at hrec
        have hpre : '+' ∉ (String.mk cur.reverse ++ v).data := by
          simp only [String.data_append, List.mem_append, not_or]
          exact ⟨hcur2, hvfree⟩
        rw [FillTopic_plus _ _ _ _ hcur2, FillTopic_append _ _ _ hpre, hrec]
        simp only [List.map_cons, fillLeftToRight]
    · have hcur2 : '+' ∉ x :: cur := by
        simp only [List.mem_cons, not_or]
        exact ⟨fun e => hx e.symm, hcur⟩
      have hrec := ih (x :: cur) vs hcur2 hv
      have hsplit : splitAux '+' (x :: xs) cur = splitAux '+' xs (x :: cur) := by
        simp [splitAux, hx]
      rw [hsplit, ← hrec]
      simp

theorem countChar_replaceFirst (c : Char) (v s : List Char) (h : c ∉ v) :
    countChar c (replaceFirst c v s) = countChar c s - 1 := by
  induction s with
  | nil => rfl
  | cons x xs ih =>
    by_cases hx : x = c
    · have hv0 : countChar c v = 0 := (countChar_eq_zero_iff c v).2 h
      simp [replaceFirst, countChar, hx, countChar_append, hv0]
    · simp [replaceFirst, countChar, hx, ih]

theorem countChar_FillTopic (t : String) (vs : List String) (hv : ∀ v ∈ vs, '+' ∉ v.data) :
    countChar '+' (FillTopic t vs).data = countChar '+' t.data - vs.length := by
  induction vs generalizing t with
  | nil => simp [FillTopic_nil]
  | cons v vs ih =>
    rw [FillTopic_cons, ih _ (fun w hw => hv w (by simp [hw])), Replace1_data,
      countChar_replaceFirst _ _ _ (hv v (by simp))]
    simp only [List.length_cons]
    omega

theorem FillTopic_take (t : String) (vs : List String) (hv : ∀ v ∈ vs, '+' ∉ v.data) :
    FillTopic t vs = FillTopic t (vs.take (countChar '+' t.data)) := by
  induction vs generalizing t with
  | nil => simp
  | cons v vs ih =>
    cases hk : countChar '+' t.data with
    | zero =>
      have hfree : '+' ∉ t.data := (countChar_eq_zero_iff _ _).1 hk
      simp [FillTopic_of_not_mem _ _ hfree]
    | succ k =>
      have hcount : countChar '+' (Replace1 t '+' v).data = k := by
        rw [Replace1_data, countChar_replaceFirst _ _ _ (hv v (by simp)), hk]
        simp
      have hrec := ih (Replace1 t '+' v) (fun w hw => hv w (by simp [hw]))
      rw [hcount] at hrec
      simp only [List.take_succ_cons, FillTopic_cons]
      exact hrec

/-! ## Lemmas on overlapping templates and registration order -/

theorem segsOverlap_of_match (ts1 : List String) :
    ∀ (ts2 ss c1 c2 : List String), matchSegments ts1 ss = some c1 →
      matchSegments ts2 ss = some c2 → segsOverlap ts1 ts2 = true := by
  induction ts1 with
  | nil =>
    intro ts2 ss c1 c2 h1 h2
    cases ss with
    | nil =>
      cases ts2 with
      | nil => rfl
      | cons b bs => simp [matchSegments] at h2
    | cons s ss => simp [matchSegments] at h1
  | cons a as ih =>
    intro ts2 ss c1 c2 h1 h2
    cases ss with
    | nil => simp [matchSegments] at h1
    | cons s ss =>
      cases ts2 with
      | nil => simp [matchSegments] at h2
      | cons b bs =>
        have htail : ∃ d1 d2, matchSegments as ss = some d1 ∧ matchSegments bs ss = some d2 := by
          have e1 : ∃ d1, matchSegments as ss = some d1 := by
            by_cases ha : a = "+"
            · simp only [matchSegments, ha, if_true, Option.map_eq_some'] at h1
              obtain ⟨d, hd, _⟩ := h1
              exact ⟨d, hd⟩
            · by_cases has : a = s
              · subst has
                simp only [matchSegments, ha, if_true, if_false] at h1
                exact ⟨c1, h1⟩
              · simp [matchSegments, ha, has] at h1
          have e2 : ∃ d2, matchSegments bs ss = some d2 := by
            by_cases hb : b = "+"
            · simp only [matchSegments, hb, if_true, Option.map_eq_some'] at h2
              obtain ⟨d, hd, _⟩ := h2
              exact ⟨d, hd⟩
            · by_cases hbs : b = s
              · subst hbs
                simp only [matchSegments, hb, if_true, if_false] at h2
                exact ⟨c2, h2⟩
              · simp [matchSegments, hb, hbs] at h2
          obtain ⟨d1, hd1⟩ := e1
          obtain ⟨d2, hd2⟩ := e2
          exact ⟨d1, d2, hd1, hd2⟩
        obtain ⟨d1, d2, hd1, hd2⟩ := htail
        have hrec := ih bs ss d1 d2 hd1 hd2
        have hhead : a = "+" ∨ b = "+" ∨ a = b := by
          by_cases ha : a = "+"
          · exact Or.inl ha
          · by_cases hb : b = "+"
            · exact Or.inr (Or.inl hb)
            · have has : a = s := by
                by_contra hne
                simp [matchSegments, ha, hne] at h1
              have hbs : b = s := by
                by_contra hne
                simp [matchSegments, hb, hne] at h2
              exact Or.inr (Or.inr (has.trans hbs.symm))
        simp only [segsOverlap, hrec, Bool.and_true, Bool.or_eq_true, decide_eq_true_eq]
        rcases hhead with h | h | h
        · exact Or.inl (Or.inl h)
        · exact Or.inl (Or.inr h)
        · exact Or.inr h

theorem matchTemplate_some_segments (t topic : String) (c : List String)
    (h : matchTemplate t topic = some c) :
    matchSegments (Split t '/') (Split topic '/') = some c := by
  by_cases hlen : (Split t '/').length ≠ (Split topic '/').length
  · simp [matchTemplate, hlen] at h
  · simpa [matchTemplate, hlen] using h

theorem no_common_topic (t1 t2 topic : String)
    (hno : segsOverlap (Split t1 '/') (Split t2 '/') = false)
    (h1 : (matchTemplate t1 topic).isSome = true) (h2 : (matchTemplate t2 topic).isSome = true) :
    False := by
  obtain ⟨c1, hc1⟩ := Option.isSome_iff_exists.1 h1
  obtain ⟨c2, hc2⟩ := Option.isSome_iff_exists.1 h2
  have := segsOverlap_of_match _ _ _ _ _ (matchTemplate_some_segments _ _ _ hc1)
    (matchTemplate_some_segments _ _ _ hc2)
  rw [hno] at this
  exact Bool.noConfusion this

theorem initMatcher_paths (prev : Option Matcher) :
    (initMatcher prev).paths =
      [FogTopicThingModelPropSet, FogTopicThingModelSvcReq, AliyunTopicThingModelPropSet,
        AliyunTopicThingModelSvcReq] := rfl

theorem registered_disjoint (prev : Option Matcher) (topic t1 t2 : String)
    (ht1 : t1 ∈ (initMatcher prev).paths) (ht2 : t2 ∈ (initMatcher prev).paths)
    (h1 : (matchTemplate t1 topic).isSome = true) (h2 : (matchTemplate t2 topic).isSome = true) :
    t1 = t2 := by
  rw [initMatcher_paths] at ht1 ht2
  simp only [List.mem_cons, List.mem_singleton, List.not_mem_nil, or_false] at ht1 ht2
  rcases ht1 with rfl | rfl | rfl | rfl <;> rcases ht2 with rfl | rfl | rfl | rfl <;>
    first
    | rfl
    | exact (no_common_topic _ _ topic (by decide) h1 h2).elim

theorem matchPaths_of_none (l : List String) (topic : String)
    (h : ∀ u ∈ l, matchTemplate u topic = none) : matchPaths l topic = ("", [], false) := by
  induction l with
  | nil => rfl
  | cons u us ih =>
    have hu := h u (by simp)
    simp [matchPaths, hu, ih (fun w hw => h w (by simp [hw]))]

theorem matchPaths_of_unique (l : List String) (topic t : String) (c : List String)
    (ht : t ∈ l) (hc : matchTemplate t topic = some c)
    (huniq : ∀ u ∈ l, (matchTemplate u topic).isSome = true → u = t) :
    matchPaths l topic = (t, c, true) := by
  induction l with
  | nil => simp at ht
  | cons u us ih =>
    cases hu : matchTemplate u topic with
    | some c2 =>
      have hut : u = t := huniq u (by simp) (by simp [hu])
      subst hut
      rw [hc] at hu
      cases hu
      simp [matchPaths, hc]
    | none =>
      have hne : t ≠ u := by
        intro e
        rw [e, hu] at hc
        cases hc
      have ht2 : t ∈ us := by
        rcases List.mem_cons.1 ht with e | e
        · exact absurd e hne
        · exact e
      simp only [matchPaths, hu]
      exact ih ht2 (fun w hw hs => huniq w (by simp [hw]) hs)

theorem matchPaths_perm (l1 l2 : List String) (topic : String) (hp : l1.Perm l2)
    (hdisj : ∀ t1 ∈ l2, ∀ t2 ∈ l2, (matchTemplate t1 topic).isSome = true →
      (matchTemplate t2 topic).isSome = true → t1 = t2) :
    matchPaths l1 topic = matchPaths l2 topic := by
  by_cases hex : ∃ t ∈ l2, (matchTemplate t topic).isSome = true
  · obtain ⟨t, ht, hs⟩ := hex
    obtain ⟨c, hc⟩ := Option.isSome_iff_exists.1 hs
    rw [matchPaths_of_unique l2 topic t c ht hc (fun u hu hus => hdisj u hu t ht hus hs),
      matchPaths_of_unique l1 topic t c (hp.mem_iff.2 ht) hc
        (fun u hu hus => hdisj u (hp.mem_iff.1 hu) t ht hus hs)]
  · have hnone : ∀ u ∈ l2, matchTemplate u topic = none := by
      intro u hu
      cases hm : matchTemplate u topic with
      | none => rfl
      | some c => exact absurd ⟨u, hu, by simp [hm]⟩ hex
    rw [matchPaths_of_none l2 topic hnone,
      matchPaths_of_none l1 topic (fun u hu => hnone u (hp.mem_iff.1 hu))]

/-! ## Lemmas on runs of `Handler` calls -/

theorem World.run_append {P : Type} (J : Jsoniter P) (w : World) (s1 s2 : List Nat) :
    w.run J (s1 ++ s2) = (w.run J s1).run J s2 := by
  simp [World.run, List.foldl_append]

theorem World.step_set {P : Type} (J : Jsoniter P) (g : Option Matcher) (l : List Call)
    (i : Nat) (c : Call) (hi : i < l.length) :
    World.step J ⟨g, l.set i c⟩ i = ⟨(stepCall J g c).1, l.set i (stepCall J g c).2⟩ := by
  simp [World.step, hi, List.set_set]

theorem World.run_init {P : Type} (J : Jsoniter P) (w : World) (i : Nat) (c : Call)
    (hc : w.calls[i]? = some c) (hpc : c.pc = 0) :
    w.run J (List.replicate 5 i) =
      ⟨some (initMatcher none), w.calls.set i ⟨c.req, 5, c.result⟩⟩ := by
  obtain ⟨hi, _⟩ := List.getElem?_eq_some.1 hc
  obtain ⟨g, l⟩ := w
  obtain ⟨r, pc, res⟩ := c
  simp only at hpc hi hc
  subst hpc
  have e : List.replicate 5 i = [i, i, i, i, i] := rfl
  have h0 : World.step J ⟨g, l⟩ i =
      ⟨(stepCall J g ⟨r, 0, res⟩).1, l.set i (stepCall J g ⟨r, 0, res⟩).2⟩ := by
    simp only [World.step, hc]
  rw [e]
  simp only [World.run, List.foldl_cons, List.foldl_nil]
  rw [h0]
  simp only [stepCall]
  rw [World.step_set J _ _ _ _ hi]
  simp only [stepCall, Option.map_some']
  rw [World.step_set J _ _ _ _ hi]
  simp only [stepCall, Option.map_some']
  rw [World.step_set J _ _ _ _ hi]
  simp only [stepCall, Option.map_some']
  rw [World.step_set J _ _ _ _ hi]
  simp only [stepCall, Option.map_some']
  rfl

theorem World.step_handle {P : Type} (J : Jsoniter P) (w : World) (i : Nat) (c : Call)
    (hc : w.calls[i]? = some c) (hpc : c.pc = 5) :
    w.step J i =
      ⟨w.downlinkMatcher, w.calls.set i ⟨c.req, 6, w.downlinkMatcher.map fun m =>
        HandleDownlink J m c.req.RawClientid c.req.RawUsername c.req.RawPassword
          c.req.FogTopic c.req.FogPayload⟩⟩ := by
  obtain ⟨r, pc, res⟩ := c
  simp only at hpc
  subst hpc
  simp only [World.step, hc, stepCall]

theorem World.run_call {P : Type} (J : Jsoniter P) (w : World) (i : Nat) (c : Call)
    (hc : w.calls[i]? = some c) (hpc : c.pc = 0) :
    w.run J (List.replicate 6 i) =
      ⟨some (initMatcher none), w.calls.set i ⟨c.req, 6,
        some (HandleDownlink J (initMatcher none) c.req.RawClientid c.req.RawUsername
          c.req.RawPassword c.req.FogTopic c.req.FogPayload)⟩⟩ := by
  obtain ⟨hi, _⟩ := List.getElem?_eq_some.1 hc
  have e : List.replicate 6 i = List.replicate 5 i ++ [i] := rfl
  rw [e, World.run_append, World.run_init J w i c hc hpc]
  have hget : (w.calls.set i ⟨c.req, 5, c.result⟩)[i]? = some ⟨c.req, 5, c.result⟩ := by
    simp [hi]
  simp only [World.run, List.foldl_cons, List.foldl_nil]
  rw [World.step_handle J _ i _ hget rfl]
  simp [List.set_set]

theorem World.run_oneAfterAnother {P : Type} (J : Jsoniter P) (order : List Nat) :
    ∀ w : World, order.Nodup →
      (∀ i ∈ order, (w.calls[i]?).map (fun c => c.pc) = some 0) →
      (∀ i ∈ order, ∀ c, w.calls[i]? = some c →
        (w.run J (oneAfterAnother order)).calls[i]? =
          some ⟨c.req, 6,
            some (HandleDownlink J (initMatcher none) c.req.RawClientid c.req.RawUsername
              c.req.RawPassword c.req.FogTopic c.req.FogPayload)⟩) ∧
      (∀ k, k ∉ order → (w.run J (oneAfterAnother order)).calls[k]? = w.calls[k]?) ∧
      (order ≠ [] →
        (w.run J (oneAfterAnother order)).downlinkMatcher = some (initMatcher none)) := by
  induction order with
  | nil =>
    intro w _ _
    simp [oneAfterAnother, World.run]
  | cons i rest ih =>
    intro w hnodup hfresh
    have hirest : i ∉ rest := (List.nodup_cons.1 hnodup).1
    have hrest : rest.Nodup := (List.nodup_cons.1 hnodup).2
    obtain ⟨c0, hc0, hpc0⟩ : ∃ c, w.calls[i]? = some c ∧ c.pc = 0 := by
      have := hfresh i (by simp)
      cases hci : w.calls[i]? with
      | none => simp [hci] at this
      | some c => exact ⟨c, rfl, by simpa [hci] using this⟩
    have hsched : oneAfterAnother (i :: rest) = List.replicate 6 i ++ oneAfterAnother rest := by
      simp [oneAfterAnother]
    have hw1 := World.run_call J w i c0 hc0 hpc0
    have hother : ∀ k, k ≠ i → (w.run J (List.replicate 6 i)).calls[k]? = w.calls[k]? := by
      intro k hk
      rw [hw1]
      simp [List.getElem?_set_ne (Ne.symm hk)]
    have hself : (w.run J (List.replicate 6 i)).calls[i]? =
        some ⟨c0.req, 6,
          some (HandleDownlink J (initMatcher none) c0.req.RawClientid c0.req.RawUsername
            c0.req.RawPassword c0.req.FogTopic c0.req.FogPayload)⟩ := by
      obtain ⟨hi, _⟩ := List.getElem?_eq_some.1 hc0
      rw [hw1]
      simp [hi]
    have hfresh1 : ∀ j ∈ rest,
        ((w.run J (List.replicate 6 i)).calls[j]?).map (fun c => c.pc) = some 0 := by
      intro j hj
      have hji : j ≠ i := fun e => hirest (e ▸ hj)
      rw [hother j hji]
      exact hfresh j (by simp [hj])
    obtain ⟨ih1, ih2, ih3⟩ := ih (w.run J (List.replicate 6 i)) hrest hfresh1
    rw [hsched, World.run_append]
    refine ⟨?_, ?_, ?_⟩
    · intro j hj c hc
      rcases List.mem_cons.1 hj with e | hjr
      · subst e
        rw [ih2 j hirest, hself]
        rw [hc0] at hc
        cases hc
        rfl
      · have hji : j ≠ i := fun e => hirest (e ▸ hjr)
        exact ih1 j hjr c (by rw [hother j hji]; exact hc)
    · intro k hk
      have hki : k ≠ i := fun e => hk (by simp [e])
      have hkr : k ∉ rest := fun e => hk (by simp [e])
      rw [ih2 k hkr, hother k hki]
    · intro _
      by_cases hr : rest = []
      · subst hr
        simp only [oneAfterAnother, List.flatMap_nil, World.run, List.foldl_nil]
        have := hw1
        simp only [World.run] at this
        rw [this]
      · exact ih3 hr

/-! ## Theorems -/

/-- C1 (amended): for every template `t` with exactly `k` markers `+` and every
list of exactly `k` values of which all but possibly the last contain no
`+`, `FillTopic t [v1, .., vk]` is `p0 ++ v1 ++ p1 ++ ... ++ vk ++ pk`, where
`p0 .. pk` are the pieces of `t` between its markers. -/
theorem FillTopic_eq_interleave (t : String) (vs : List String)
    (hk : countChar '+' t.data = vs.length)
    (hv : ∀ v ∈ vs.dropLast, '+' ∉ v.data) :
    FillTopic t vs = interleave (Split t '+') vs := by
  have h := fill_interleave_aux t.data [] vs (by simp) hv hk
  simpa [Split] using h

/-- C1 (witness): the Aliyun property-set template has two markers; filled
with `pk1` and `dev1` it gives the interleaving of its three pieces with the
two values. -/
theorem FillTopic_eq_interleave_witness :
    countChar '+' AliyunTopicThingModelPropSet.data = ["pk1", "dev1"].length ∧
      (∀ v ∈ (["pk1", "dev1"] : List String).dropLast, '+' ∉ v.data) ∧
      FillTopic AliyunTopicThingModelPropSet ["pk1", "dev1"] =
        interleave (Split AliyunTopicThingModelPropSet '+') ["pk1", "dev1"] :=
  ⟨by decide, by decide,
    FillTopic_eq_interleave AliyunTopicThingModelPropSet ["pk1", "dev1"] (by decide) (by decide)⟩

/-- C1 (counterexample): the template `+/+` has two markers and is given two
values, the first of which is `+`.  Replacing the i-th marker by the i-th
value gives `+/b`, but `FillTopic` returns `b/+`: the second replacement hits
the `+` that the first one wrote. -/
theorem FillTopic_value_with_plus :
    countChar '+' ("+/+" : String).data = (["+", "b"] : List String).length ∧
      interleave (Split "+/+" '+') ["+", "b"] = "+/b" ∧
      FillTopic "+/+" ["+", "b"] = "b/+" ∧
      FillTopic "+/+" ["+", "b"] ≠ interleave (Split "+/+" '+') ["+", "b"] := by
  decide

/-- C2: for every string `u`, `parseUsername u` fails with
`ErrInvalidUsername` exactly when splitting `u` on `&` does not give two
parts, which is exactly when `u` does not contain one `&`; the only other
outcome is the nil error.  In particular `onlyonepart`, `a&b&c` and the empty
string fail. -/
theorem parseUsername_error_iff :
    (∀ u : String,
      ((parseUsername u).2.2 = some ErrInvalidUsername ↔ (Split u '&').length ≠ 2) ∧
      ((Split u '&').length ≠ 2 ↔ countChar '&' u.data ≠ 1) ∧
      ((parseUsername u).2.2 = some ErrInvalidUsername ∨ (parseUsername u).2.2 = none)) ∧
    parseUsername "onlyonepart" = ("", "", some ErrInvalidUsername) ∧
    parseUsername "a&b&c" = ("", "", some ErrInvalidUsername) ∧
    parseUsername "" = ("", "", some ErrInvalidUsername) := by
  refine ⟨?_, by decide, by decide, by decide⟩
  intro u
  have hlen := Split_length u '&'
  by_cases h : (Split u '&').length = 2
  · obtain ⟨pk, dn, hok⟩ := parseUsername_of_length_eq u h
    refine ⟨?_, ?_, ?_⟩
    · simp [hok, h]
    · constructor
      · intro hne; exact absurd h hne
      · intro hc; omega
    · simp [hok]
  · have hbad := parseUsername_of_length_ne u h
    refine ⟨?_, ?_, ?_⟩
    · simp [hbad, h]
    · constructor
      · intro _; omega
      · intro _; exact h
    · simp [hbad]

/-- C3: for strings `a` and `b` without `&` (either may be empty),
`parseUsername (a ++ "&" ++ b)` succeeds with product key `b` (first
component) and device name `a` (second component). -/
theorem parseUsername_deviceName_productKey (a b : String)
    (ha : '&' ∉ a.data) (hb : '&' ∉ b.data) :
    parseUsername (a ++ "&" ++ b) = (b, a, none) :=
  parseUsername_amp a b ha hb

/-- C3 (witness): `device1&pk1` gives product key `pk1` and device name
`device1`. -/
theorem parseUsername_deviceName_productKey_witness :
    '&' ∉ ("device1" : String).data ∧ '&' ∉ ("pk1" : String).data ∧
      parseUsername ("device1" ++ "&" ++ "pk1") = ("pk1", "device1", none) :=
  ⟨by decide, by decide,
    parseUsername_deviceName_productKey "device1" "pk1" (by decide) (by decide)⟩

/-- C4 (amended): the registered property-set source template is byte for
byte `fogcloud/+/+/thing/down/property/set` and it is in the registry built by
`initMatcher`; for all `x` and `y` without `/` and every credential `dn&pk`,
`HandleDownlink` called on `fogcloud/x/y/thing/down/property/set` does not
fail with `ErrUnmatchedTopic`. -/
theorem HandleDownlink_fogcloud_propset_matched {P : Type} (J : Jsoniter P)
    (prev : Option Matcher) (cid pw payload x y dn pk : String)
    (hx : '/' ∉ x.data) (hy : '/' ∉ y.data) (hdn : '&' ∉ dn.data) (hpk : '&' ∉ pk.data) :
    FogTopicThingModelPropSet = "fogcloud/+/+/thing/down/property/set" ∧
      FogTopicThingModelPropSet ∈ (initMatcher prev).paths ∧
      (HandleDownlink J (initMatcher prev) cid (dn ++ "&" ++ pk) pw
        ("fogcloud/" ++ x ++ "/" ++ y ++ "/thing/down/property/set") payload).2.2 ≠
        some ErrUnmatchedTopic := by
  refine ⟨rfl, ?_, ?_⟩
  · simp [initMatcher, Matcher.AddPath, NewMqttTopicMatcher]
  · rw [HandleDownlink_propset J _ cid _ pw _ payload pk dn [x, y]
      (parseUsername_amp dn pk hdn hpk) (match_fog_propset_topic prev x y hx hy)]
    simp

/-- C4 (witness): topic `fogcloud/x/y/thing/down/property/set` with credential
`dev1&pk1` is not rejected, and the destination topic is
`/sys/pk1/dev1/thing/service/property/set`. -/
theorem HandleDownlink_fogcloud_propset_matched_witness :
    '/' ∉ ("x" : String).data ∧ '/' ∉ ("y" : String).data ∧
      '&' ∉ ("dev1" : String).data ∧ '&' ∉ ("pk1" : String).data ∧
      (HandleDownlink tinyJson (initMatcher none) "c" ("dev1" ++ "&" ++ "pk1") "pw"
        ("fogcloud/" ++ "x" ++ "/" ++ "y" ++ "/thing/down/property/set") "\x7b\x7d").2.2 ≠
        some ErrUnmatchedTopic ∧
      (HandleDownlink tinyJson (initMatcher none) "c" "dev1&pk1" "pw"
        "fogcloud/x/y/thing/down/property/set" "\x7b\x7d").1 =
        "/sys/pk1/dev1/thing/service/property/set" :=
  ⟨by decide, by decide, by decide, by decide,
    (HandleDownlink_fogcloud_propset_matched tinyJson none "c" "pw" "\x7b\x7d" "x" "y" "dev1"
      "pk1" (by decide) (by decide) (by decide) (by decide)).2.2,
    by decide⟩

/-- C4 (counterexample): the topic `fog/x/y/thing/down/property/set` with
credential `dev1&pk1` fails with `ErrUnmatchedTopic`, and the registered
template is not `fog/+/+/thing/down/property/set`. -/
theorem HandleDownlink_fog_prefix_unmatched :
    '/' ∉ ("x" : String).data ∧ '/' ∉ ("y" : String).data ∧
      HandleDownlink tinyJson (initMatcher none) "c" ("dev1" ++ "&" ++ "pk1") "pw"
        ("fog/" ++ "x" ++ "/" ++ "y" ++ "/thing/down/property/set") "\x7b\x7d" =
        ("", "", some ErrUnmatchedTopic) ∧
      FogTopicThingModelPropSet ≠ "fog/+/+/thing/down/property/set" := by
  decide

/-- C5 (amended): for every payload string, decodable or not, a valid
credential and a topic that the matcher reports as matching a source template
(with three captured values for the service-request template),
`HandleDownlink` returns the nil error and the destination payload
`payloadFogToAliyun p method`; that payload is built from the envelope as the
decoder left it, so where the decoder wrote nothing it is the encoding of the
envelope with id `0`, version `1.0`, the method and nil params.  The decode
error is discarded. -/
theorem HandleDownlink_decode_error_discarded {P : Type} (J : Jsoniter P) (m : Matcher)
    (cid username pw topic p tmpl : String) (params : List String)
    (hcred : (parseUsername username).2.2 = none)
    (hm : m.MatchWithAnonymousParams topic = (tmpl, params, true))
    (hsrc : tmpl = FogTopicThingModelPropSet ∨
      (tmpl = FogTopicThingModelSvcReq ∧ params.length = 3)) :
    (HandleDownlink J m cid username pw topic p).2.2 = none ∧
      (HandleDownlink J m cid username pw topic p).2.1 =
        payloadFogToAliyun J p
          (if tmpl = FogTopicThingModelPropSet then "thing.service.property.set"
            else "thing.service." ++ params.getD 2 "") ∧
      ∀ method : String,
        (J.UnmarshalFromStringFog p ⟨0, "", "", 0, J.nilParams⟩).1 =
            ⟨0, "", "", 0, J.nilParams⟩ →
          payloadFogToAliyun J p method =
            EncodeToString (J.MarshalAliyun ⟨"0", "1.0", J.nilParams, method⟩) := by
  obtain ⟨pk, dn, hp⟩ := parseUsername_cases username hcred
  refine ⟨?_, ?_, ?_⟩
  · rcases hsrc with h | ⟨h, hlen⟩
    · subst h
      rw [HandleDownlink_propset J m cid username pw topic p pk dn params hp hm]
    · subst h
      match params, hlen, hm with
      | [x, y, s], _, hm =>
        rw [HandleDownlink_svcreq J m cid username pw topic p pk dn x y s hp hm]
  · rcases hsrc with h | ⟨h, hlen⟩
    · subst h
      rw [HandleDownlink_propset J m cid username pw topic p pk dn params hp hm]
      simp
    · subst h
      have hne : ¬ FogTopicThingModelSvcReq = FogTopicThingModelPropSet := by decide
      match params, hlen, hm with
      | [x, y, s], _, hm =>
        rw [HandleDownlink_svcreq J m cid username pw topic p pk dn x y s hp hm]
        simp [hne]
  · intro method hz
    simp only [payloadFogToAliyun, hz]
    rfl

/-- C5 (witness): the empty JSON object as payload on a property-set topic
with credential `dev1&pk1`. -/
theorem HandleDownlink_decode_error_discarded_witness :
    (parseUsername "dev1&pk1").2.2 = none ∧
      (HandleDownlink tinyJson (initMatcher none) "c" "dev1&pk1" "pw"
        "fogcloud/x/y/thing/down/property/set" "\x7b\x7d").2.2 = none :=
  ⟨by decide,
    (HandleDownlink_decode_error_discarded tinyJson (initMatcher none) "c" "dev1&pk1" "pw"
      "fogcloud/x/y/thing/down/property/set" "\x7b\x7d" FogTopicThingModelPropSet ["x", "y"]
      (by decide) (by decide) (Or.inl rfl)).1⟩

/-- C5 (counterexample): the payload made of a single opening brace is not
JSON and the decoder reports an error on it, yet `HandleDownlink`, called with credential
`dev1&pk1` on a topic matching the property-set source template, returns the
nil error together with a non-empty destination payload: the encoding of the
envelope built from the zero-valued source envelope. -/
theorem HandleDownlink_malformed_payload_accepted :
    (tinyJson.UnmarshalFromStringFog "\x7b" ⟨0, "", "", 0, ()⟩).2 = true ∧
      (parseUsername "dev1&pk1").2.2 = none ∧
      ((initMatcher none).MatchWithAnonymousParams "fogcloud/x/y/thing/down/property/set").2.2 =
        true ∧
      HandleDownlink tinyJson (initMatcher none) "c" "dev1&pk1" "pw"
        "fogcloud/x/y/thing/down/property/set" "\x7b" =
        ("/sys/pk1/dev1/thing/service/property/set",
          EncodeToString (tinyJson.MarshalAliyun
            ⟨"0", "1.0", (), "thing.service.property.set"⟩), none) ∧
      EncodeToString (tinyJson.MarshalAliyun ⟨"0", "1.0", (), "thing.service.property.set"⟩) ≠
        "" := by
  decide

/-- C6 (amended): `initMatcher` registers the two Aliyun destination templates
(third and fourth), so every instance of one of them, with values that contain
no `/`, is matched by the registry with that template and the values as
captures; for every valid credential `HandleDownlink` produces no destination
topic and no destination payload for such a topic. -/
theorem initMatcher_matches_aliyun_templates {P : Type} (J : Jsoniter P)
    (prev : Option Matcher) (cid username pw p x y z : String)
    (hcred : (parseUsername username).2.2 = none)
    (hx : '/' ∉ x.data) (hy : '/' ∉ y.data) (hz : '/' ∉ z.data) :
    (initMatcher prev).paths.drop 2 =
        [AliyunTopicThingModelPropSet, AliyunTopicThingModelSvcReq] ∧
      (initMatcher prev).MatchWithAnonymousParams
          ("/sys/" ++ x ++ "/" ++ y ++ "/thing/service/property/set") =
        (AliyunTopicThingModelPropSet, [x, y], true) ∧
      (initMatcher prev).MatchWithAnonymousParams
          ("/sys/" ++ x ++ "/" ++ y ++ "/thing/service/" ++ z) =
        (AliyunTopicThingModelSvcReq, [x, y, z], true) ∧
      (HandleDownlink J (initMatcher prev) cid username pw
          ("/sys/" ++ x ++ "/" ++ y ++ "/thing/service/property/set") p).1 = "" ∧
      (HandleDownlink J (initMatcher prev) cid username pw
          ("/sys/" ++ x ++ "/" ++ y ++ "/thing/service/property/set") p).2.1 = "" ∧
      (HandleDownlink J (initMatcher prev) cid username pw
          ("/sys/" ++ x ++ "/" ++ y ++ "/thing/service/" ++ z) p).1 = "" ∧
      (HandleDownlink J (initMatcher prev) cid username pw
          ("/sys/" ++ x ++ "/" ++ y ++ "/thing/service/" ++ z) p).2.1 = "" := by
  obtain ⟨pk, dn, hp⟩ := parseUsername_cases username hcred
  have h1 := match_aliyun_propset_topic prev x y hx hy
  have h2 := match_aliyun_svc_topic prev x y z hx hy hz
  have r1 := HandleDownlink_other J (initMatcher prev) cid username pw _ p pk dn _ _ hp h1
    (by decide) (by decide)
  have r2 := HandleDownlink_other J (initMatcher prev) cid username pw _ p pk dn _ _ hp h2
    (by decide) (by decide)
  refine ⟨?_, h1, h2, ?_, ?_, ?_, ?_⟩
  · simp [initMatcher, Matcher.AddPath, NewMqttTopicMatcher]
  · rw [r1]
  · rw [r1]
  · rw [r2]
  · rw [r2]

/-- C6 (witness): the values `a`, `b`, `reboot` and the credential `dev1&pk1`. -/
theorem initMatcher_matches_aliyun_templates_witness :
    (parseUsername "dev1&pk1").2.2 = none ∧ '/' ∉ ("a" : String).data ∧
      '/' ∉ ("b" : String).data ∧ '/' ∉ ("reboot" : String).data ∧
      (initMatcher none).MatchWithAnonymousParams
          ("/sys/" ++ "a" ++ "/" ++ "b" ++ "/thing/service/" ++ "reboot") =
        (AliyunTopicThingModelSvcReq, ["a", "b", "reboot"], true) :=
  ⟨by decide, by decide, by decide, by decide,
    (initMatcher_matches_aliyun_templates tinyJson none "c" "dev1&pk1" "pw" "\x7b\x7d" "a" "b"
      "reboot" (by decide) (by decide) (by decide) (by decide)).2.2.1⟩

/-- C6 (counterexample): with credential `dev1&pk1`, the topics
`/sys/a/b/thing/service/property/set` and `/sys/a/b/thing/service/reboot`,
instances of the two Aliyun destination templates, do not give
`ErrUnmatchedTopic`: the result is the nil error together with an empty
destination topic and an empty destination payload. -/
theorem HandleDownlink_aliyun_topic_nil_error :
    (parseUsername "dev1&pk1").2.2 = none ∧
      HandleDownlink tinyJson (initMatcher none) "c" "dev1&pk1" "pw"
        "/sys/a/b/thing/service/property/set" "\x7b\x7d" = ("", "", none) ∧
      HandleDownlink tinyJson (initMatcher none) "c" "dev1&pk1" "pw"
        "/sys/a/b/thing/service/reboot" "\x7b\x7d" = ("", "", none) := by
  decide

/-- C7: for every topic that the matcher reports as matching the property-set
source template (whatever the captured values), every credential `dn&pk` in
which `dn` and `pk` contain neither `&` nor `+`, and every payload `p`,
`HandleDownlink` returns the nil error, the destination topic
`/sys/pk/dn/thing/service/property/set` and the destination payload
`payloadFogToAliyun p "thing.service.property.set"`. -/
theorem HandleDownlink_property_set {P : Type} (J : Jsoniter P) (m : Matcher)
    (cid pw topic p dn pk : String) (params : List String)
    (hm : m.MatchWithAnonymousParams topic = (FogTopicThingModelPropSet, params, true))
    (hdn : '&' ∉ dn.data ∧ '+' ∉ dn.data) (hpk : '&' ∉ pk.data ∧ '+' ∉ pk.data) :
    HandleDownlink J m cid (dn ++ "&" ++ pk) pw topic p =
      ("/sys/" ++ pk ++ "/" ++ dn ++ "/thing/service/property/set",
        payloadFogToAliyun J p "thing.service.property.set", none) := by
  rw [HandleDownlink_propset J m cid _ pw topic p pk dn params
    (parseUsername_amp dn pk hdn.1 hpk.1) hm, FillTopic_AliyunPropSet pk dn hpk.2]

/-- C7 (witness): topic `fogcloud/x/y/thing/down/property/set` with credential
`dev1&pk1` gives `/sys/pk1/dev1/thing/service/property/set`. -/
theorem HandleDownlink_property_set_witness :
    (initMatcher none).MatchWithAnonymousParams "fogcloud/x/y/thing/down/property/set" =
        (FogTopicThingModelPropSet, ["x", "y"], true) ∧
      ('&' ∉ ("dev1" : String).data ∧ '+' ∉ ("dev1" : String).data) ∧
      ('&' ∉ ("pk1" : String).data ∧ '+' ∉ ("pk1" : String).data) ∧
      HandleDownlink tinyJson (initMatcher none) "c" ("dev1" ++ "&" ++ "pk1") "pw"
        "fogcloud/x/y/thing/down/property/set" "\x7b\x7d" =
        ("/sys/" ++ "pk1" ++ "/" ++ "dev1" ++ "/thing/service/property/set",
          payloadFogToAliyun tinyJson "\x7b\x7d" "thing.service.property.set", none) :=
  ⟨by decide, by decide, by decide,
    HandleDownlink_property_set tinyJson (initMatcher none) "c" "pw"
      "fogcloud/x/y/thing/down/property/set" "\x7b\x7d" "dev1" "pk1" ["x", "y"]
      (by decide) (by decide) (by decide)⟩

/-- C8: for every topic that the matcher reports as matching the
service-request source template with captured values `[x, y, s]` (`s` any
string), every credential `dn&pk` in which `dn` and `pk` contain neither `&`
nor `+`, and every payload `p`, `HandleDownlink` returns the nil error, the
destination topic `/sys/pk/dn/thing/service/s` and the destination payload
`payloadFogToAliyun p ("thing.service." ++ s)`. -/
theorem HandleDownlink_service_request {P : Type} (J : Jsoniter P) (m : Matcher)
    (cid pw topic p dn pk x y s : String)
    (hm : m.MatchWithAnonymousParams topic = (FogTopicThingModelSvcReq, [x, y, s], true))
    (hdn : '&' ∉ dn.data ∧ '+' ∉ dn.data) (hpk : '&' ∉ pk.data ∧ '+' ∉ pk.data) :
    HandleDownlink J m cid (dn ++ "&" ++ pk) pw topic p =
      ("/sys/" ++ pk ++ "/" ++ dn ++ "/thing/service/" ++ s,
        payloadFogToAliyun J p ("thing.service." ++ s), none) := by
  rw [HandleDownlink_svcreq J m cid _ pw topic p pk dn x y s
    (parseUsername_amp dn pk hdn.1 hpk.1) hm, FillTopic_AliyunSvcReq pk dn s hpk.2 hdn.2]

/-- C8 (witness): service name `reboot` with credential `dev2&pk2` gives
`/sys/pk2/dev2/thing/service/reboot` and method `thing.service.reboot`. -/
theorem HandleDownlink_service_request_witness :
    (initMatcher none).MatchWithAnonymousParams "fogcloud/x/y/thing/down/service/reboot" =
        (FogTopicThingModelSvcReq, ["x", "y", "reboot"], true) ∧
      ('&' ∉ ("dev2" : String).data ∧ '+' ∉ ("dev2" : String).data) ∧
      ('&' ∉ ("pk2" : String).data ∧ '+' ∉ ("pk2" : String).data) ∧
      HandleDownlink tinyJson (initMatcher none) "c" ("dev2" ++ "&" ++ "pk2") "pw"
        "fogcloud/x/y/thing/down/service/reboot" "\x7b\x7d" =
        ("/sys/" ++ "pk2" ++ "/" ++ "dev2" ++ "/thing/service/" ++ "reboot",
          payloadFogToAliyun tinyJson "\x7b\x7d" ("thing.service." ++ "reboot"), none) :=
  ⟨by decide, by decide, by decide,
    HandleDownlink_service_request tinyJson (initMatcher none) "c" "pw"
      "fogcloud/x/y/thing/down/service/reboot" "\x7b\x7d" "dev2" "pk2" "x" "y" "reboot"
      (by decide) (by decide) (by decide)⟩

/-- C9: for every username that does not contain exactly one `&`, and every
client id, password, topic, payload and matcher, `HandleDownlink` returns
`ErrInvalidUsername` with an empty destination topic and an empty destination
payload; the result is the same for every topic and every matcher. -/
theorem HandleDownlink_invalid_username {P : Type} (J : Jsoniter P) (m : Matcher)
    (cid username pw topic p : String) (h : countChar '&' username.data ≠ 1) :
    HandleDownlink J m cid username pw topic p = ("", "", some ErrInvalidUsername) ∧
      ∀ (m2 : Matcher) (topic2 : String),
        HandleDownlink J m2 cid username pw topic2 p = HandleDownlink J m cid username pw topic p := by
  have hlen : (Split username '&').length ≠ 2 := by
    rw [Split_length]; omega
  refine ⟨HandleDownlink_bad_username J m cid username pw topic p hlen, ?_⟩
  intro m2 topic2
  rw [HandleDownlink_bad_username J m cid username pw topic p hlen,
    HandleDownlink_bad_username J m2 cid username pw topic2 p hlen]

/-- C9 (witness): the credential `a&b&c`. -/
theorem HandleDownlink_invalid_username_witness :
    countChar '&' ("a&b&c" : String).data ≠ 1 ∧
      HandleDownlink tinyJson (initMatcher none) "c" "a&b&c" "pw"
        "fogcloud/x/y/thing/down/property/set" "\x7b\x7d" = ("", "", some ErrInvalidUsername) :=
  ⟨by decide,
    (HandleDownlink_invalid_username tinyJson (initMatcher none) "c" "a&b&c" "pw"
      "fogcloud/x/y/thing/down/property/set" "\x7b\x7d" (by decide)).1⟩

/-- C10: for every valid credential, every matcher and every topic for which
matching yields `matched = false`, `HandleDownlink` returns
`ErrUnmatchedTopic` with an empty destination topic and an empty destination
payload, whatever the payload; in particular this is so, with the registry
built by `initMatcher`, for every topic whose number of `/`-separated
segments differs from the segment count of each of the four registered
templates. -/
theorem HandleDownlink_unmatched_topic {P : Type} (J : Jsoniter P)
    (cid username pw topic : String) (hcred : (parseUsername username).2.2 = none) :
    (∀ (m : Matcher) (p : String), (m.MatchWithAnonymousParams topic).2.2 = false →
        HandleDownlink J m cid username pw topic p = ("", "", some ErrUnmatchedTopic)) ∧
      ∀ (prev : Option Matcher) (p : String),
        (∀ t ∈ (initMatcher prev).paths,
            (Split t '/').length ≠ (Split topic '/').length) →
          ((initMatcher prev).MatchWithAnonymousParams topic).2.2 = false ∧
            HandleDownlink J (initMatcher prev) cid username pw topic p =
              ("", "", some ErrUnmatchedTopic) := by
  obtain ⟨pk, dn, hp⟩ := parseUsername_cases username hcred
  refine ⟨?_, ?_⟩
  · intro m p hm
    exact HandleDownlink_not_matched J m cid username pw topic p pk dn hp hm
  · intro prev p hlen
    have hm : ((initMatcher prev).MatchWithAnonymousParams topic).2.2 = false := by
      rw [initMatcher_lookup, matchPaths_of_length_ne _ _ hlen]
    exact ⟨hm, HandleDownlink_not_matched J _ cid username pw topic p pk dn hp hm⟩

/-- C10 (witness): the topic `unknown/topic/here` has three segments, the
registered templates seven or eight; with credential `dev1&pk1` the result is
`ErrUnmatchedTopic`. -/
theorem HandleDownlink_unmatched_topic_witness :
    (parseUsername "dev1&pk1").2.2 = none ∧
      (∀ t ∈ (initMatcher none).paths,
        (Split t '/').length ≠ (Split "unknown/topic/here" '/').length) ∧
      HandleDownlink tinyJson (initMatcher none) "c" "dev1&pk1" "pw" "unknown/topic/here"
        "\x7b\x7d" = ("", "", some ErrUnmatchedTopic) :=
  ⟨by decide, by decide,
    ((HandleDownlink_unmatched_topic tinyJson "c" "dev1&pk1" "pw" "unknown/topic/here"
      (by decide)).2 none "\x7b\x7d" (by decide)).2⟩

/-- C11: for every source envelope with id below `2^32` and every method
string `m`, the destination envelope built by `payloadFogToAliyun` has as id
the decimal string of the source id (no sign, and it reads back as the same
number), version `1.0`, method `m` and the source params; the source version,
method and timestamp do not influence it.  The returned payload is the base64
of the JSON encoding of that envelope. -/
theorem payloadFogToAliyun_envelope {P : Type} (J : Jsoniter P) (src : FogJson P)
    (m : String) (hid : src.Id < 2 ^ 32) :
    (aliJsonOf src m).Id = Nat.repr src.Id ∧
      '-' ∉ (aliJsonOf src m).Id.data ∧
      parseDecimal (aliJsonOf src m).Id = some src.Id ∧
      (aliJsonOf src m).Version = "1.0" ∧
      (aliJsonOf src m).Method = m ∧
      (aliJsonOf src m).Params = src.Params ∧
      (∀ (version method : String) (timestamp : Int),
        aliJsonOf { src with Version := version, Method := method, Timestamp := timestamp } m =
          aliJsonOf src m) ∧
      ∀ p : String, payloadFogToAliyun J p m =
        EncodeToString (J.MarshalAliyun
          (aliJsonOf (J.UnmarshalFromStringFog p ⟨0, "", "", 0, J.nilParams⟩).1 m)) := by
  have hmod : src.Id % 2 ^ 32 = src.Id := Nat.mod_eq_of_lt hid
  have hId : (aliJsonOf src m).Id = Nat.repr src.Id := by
    simp only [aliJsonOf, hmod]
    exact Itoa_toInt_of_lt _ hid
  refine ⟨hId, ?_, ?_, rfl, rfl, rfl, ?_, ?_⟩
  · rw [hId]; exact minus_not_mem_repr _
  · rw [hId]; exact parseDecimal_repr _
  · intro version method timestamp
    rfl
  · intro p
    rfl

/-- C11 (witness): the largest id, `4294967295`, with source version `2.0`,
source method `x` and timestamp `7`. -/
theorem payloadFogToAliyun_envelope_witness :
    (4294967295 : Nat) < 2 ^ 32 ∧
      (aliJsonOf (⟨4294967295, "2.0", "x", 7, ()⟩ : FogJson Unit) "thing.service.reboot").Id =
        Nat.repr 4294967295 ∧
      Nat.repr 4294967295 = "4294967295" :=
  ⟨by decide,
    (payloadFogToAliyun_envelope tinyJson ⟨4294967295, "2.0", "x", 7, ()⟩
      "thing.service.reboot" (by decide)).1,
    by decide⟩

/-- C12 (code behaviour): `payloadAliyunToFog` returns the base64 of the JSON
encoding of the decoded Aliyun envelope itself, so the result is the same for
every method string; with the empty JSON object as input and method
`thing.event.property.post` the encoded envelope has an empty method and a
string id, not the caller's method. -/
theorem payloadAliyunToFog_marshals_aliJson :
    (∀ (P : Type) (J : Jsoniter P) (aliyunPayload m : String),
      payloadAliyunToFog J aliyunPayload m =
          EncodeToString (J.MarshalAliyun
            (J.UnmarshalFromStringAliyun aliyunPayload ⟨"", "", J.nilParams, ""⟩).1) ∧
        ∀ m2 : String, payloadAliyunToFog J aliyunPayload m2 =
          payloadAliyunToFog J aliyunPayload m) ∧
      payloadAliyunToFog tinyJson "\x7b\x7d" "thing.event.property.post" =
        EncodeToString
          "\x7b\"id\":\"\",\"version\":\"\",\"params\":null,\"method\":\"\"\x7d" := by
  refine ⟨?_, by decide⟩
  intro P J aliyunPayload m
  exact ⟨rfl, fun _ => rfl⟩

/-- C13 (amended): for each destination template `T`
(`/sys/+/+/thing/service/property/set` with two values,
`/sys/+/+/thing/service/+` with three) and all values that contain no `/` and
of which all but the last contain no `+`, matching the topic
`FillTopic T [v1, .., vk]` against the registry built by `initMatcher` yields
`matched = true`, the template `T` and the captured values `[v1, .., vk]`. -/
theorem fill_then_match_aliyun (prev : Option Matcher) (v1 v2 v3 : String)
    (h1 : '/' ∉ v1.data) (h2 : '/' ∉ v2.data) (h3 : '/' ∉ v3.data)
    (hp1 : '+' ∉ v1.data) :
    (initMatcher prev).MatchWithAnonymousParams
        (FillTopic AliyunTopicThingModelPropSet [v1, v2]) =
        (AliyunTopicThingModelPropSet, [v1, v2], true) ∧
      ('+' ∉ v2.data →
        (initMatcher prev).MatchWithAnonymousParams
            (FillTopic AliyunTopicThingModelSvcReq [v1, v2, v3]) =
          (AliyunTopicThingModelSvcReq, [v1, v2, v3], true)) := by
  refine ⟨?_, ?_⟩
  · rw [FillTopic_AliyunPropSet v1 v2 hp1]
    exact match_aliyun_propset_topic prev v1 v2 h1 h2
  · intro hp2
    rw [FillTopic_AliyunSvcReq v1 v2 v3 hp1 hp2]
    exact match_aliyun_svc_topic prev v1 v2 v3 h1 h2 h3

/-- C13 (witness): the values `pk1`, `dev1`, `reboot`. -/
theorem fill_then_match_aliyun_witness :
    '/' ∉ ("pk1" : String).data ∧ '/' ∉ ("dev1" : String).data ∧
      '/' ∉ ("reboot" : String).data ∧ '+' ∉ ("pk1" : String).data ∧
      '+' ∉ ("dev1" : String).data ∧
      (initMatcher none).MatchWithAnonymousParams
          (FillTopic AliyunTopicThingModelPropSet ["pk1", "dev1"]) =
        (AliyunTopicThingModelPropSet, ["pk1", "dev1"], true) ∧
      (initMatcher none).MatchWithAnonymousParams
          (FillTopic AliyunTopicThingModelSvcReq ["pk1", "dev1", "reboot"]) =
        (AliyunTopicThingModelSvcReq, ["pk1", "dev1", "reboot"], true) :=
  ⟨by decide, by decide, by decide, by decide, by decide,
    (fill_then_match_aliyun none "pk1" "dev1" "reboot" (by decide) (by decide) (by decide)
      (by decide)).1,
    (fill_then_match_aliyun none "pk1" "dev1" "reboot" (by decide) (by decide) (by decide)
      (by decide)).2 (by decide)⟩

/-- C13 (counterexample): the values `+` and `b` contain no `/`; filling the
Aliyun property-set template with them gives `/sys/b/+/thing/service/property/set`
and matching that topic captures `[b, +]`, not `[+, b]`. -/
theorem fill_then_match_plus_value :
    '/' ∉ ("+" : String).data ∧ '/' ∉ ("b" : String).data ∧
      FillTopic AliyunTopicThingModelPropSet ["+", "b"] =
        "/sys/b/+/thing/service/property/set" ∧
      (initMatcher none).MatchWithAnonymousParams
          (FillTopic AliyunTopicThingModelPropSet ["+", "b"]) =
        (AliyunTopicThingModelPropSet, ["b", "+"], true) ∧
      (initMatcher none).MatchWithAnonymousParams
          (FillTopic AliyunTopicThingModelPropSet ["+", "b"]) ≠
        (AliyunTopicThingModelPropSet, ["+", "b"], true) := by
  decide

/-- C14: for every valid credential and every match result that names the
service-request source template, `HandleDownlink` returns
`ErrUnmatchedTopic` with empty destination topic and payload exactly when the
captured-value list does not have three elements; when it is `[x, y, s]` the
third element `s` is the service name in the destination topic and in the
method, and the nil error is returned. -/
theorem HandleDownlink_service_request_arity {P : Type} (J : Jsoniter P) (m : Matcher)
    (cid username pw topic p : String) (params : List String)
    (hcred : (parseUsername username).2.2 = none)
    (hm : m.MatchWithAnonymousParams topic = (FogTopicThingModelSvcReq, params, true)) :
    (HandleDownlink J m cid username pw topic p = ("", "", some ErrUnmatchedTopic) ↔
        params.length ≠ 3) ∧
      ∀ x y s : String, params = [x, y, s] →
        HandleDownlink J m cid username pw topic p =
          (FillTopic AliyunTopicThingModelSvcReq
              [(parseUsername username).1, (parseUsername username).2.1, s],
            payloadFogToAliyun J p ("thing.service." ++ s), none) := by
  obtain ⟨pk, dn, hp⟩ := parseUsername_cases username hcred
  have hthree : ∀ x y s : String, params = [x, y, s] →
      HandleDownlink J m cid username pw topic p =
        (FillTopic AliyunTopicThingModelSvcReq [pk, dn, s],
          payloadFogToAliyun J p ("thing.service." ++ s), none) := by
    intro x y s hps
    subst hps
    exact HandleDownlink_svcreq J m cid username pw topic p pk dn x y s hp hm
  refine ⟨?_, ?_⟩
  · constructor
    · intro hres hlen
      match params, hlen, hthree with
      | [x, y, s], _, hthree =>
        rw [hthree x y s rfl] at hres
        simp at hres
    · intro hlen
      exact HandleDownlink_svcreq_arity J m cid username pw topic p pk dn params hp hm hlen
  · intro x y s hps
    rw [hthree x y s hps, hp]

/-- C14 (witness): the topic `fogcloud/x/y/thing/down/service/reboot` with
credential `dev2&pk2`; the captured list `[x, y, reboot]` has three elements
and the result is not `ErrUnmatchedTopic`. -/
theorem HandleDownlink_service_request_arity_witness :
    (parseUsername "dev2&pk2").2.2 = none ∧
      (initMatcher none).MatchWithAnonymousParams "fogcloud/x/y/thing/down/service/reboot" =
        (FogTopicThingModelSvcReq, ["x", "y", "reboot"], true) ∧
      (HandleDownlink tinyJson (initMatcher none) "c" "dev2&pk2" "pw"
          "fogcloud/x/y/thing/down/service/reboot" "\x7b\x7d" =
          ("", "", some ErrUnmatchedTopic) ↔
        (["x", "y", "reboot"] : List String).length ≠ 3) :=
  ⟨by decide, by decide,
    (HandleDownlink_service_request_arity tinyJson (initMatcher none) "c" "dev2&pk2" "pw"
      "fogcloud/x/y/thing/down/service/reboot" "\x7b\x7d" ["x", "y", "reboot"]
      (by decide) (by decide)).1⟩

/-- C15: for every template `t` and every list of values none of which
contains `+`, `FillTopic t [v1, .., vn]` replaces the first `min n k` markers of
`t` (`k` the number of `+` in `t`), left to right, by `v1 .. v_min(n,k)` and
leaves the pieces between and after the markers, and the remaining markers,
as they are. -/
theorem FillTopic_eq_fillLeftToRight (t : String) (vs : List String)
    (hv : ∀ v ∈ vs, '+' ∉ v.data) :
    (Split t '+').length = countChar '+' t.data + 1 ∧
      FillTopic t vs = fillLeftToRight (Split t '+') vs := by
  refine ⟨Split_length t '+', ?_⟩
  have h := fill_leftToRight_aux t.data [] vs (by simp) hv
  simpa [Split] using h

/-- C15 (witness): the service-request template has three markers; with the
two values `pk1`, `dev1` the first two markers are replaced and the third
stays, with the four values `pk1`, `dev1`, `reboot`, `extra` the fourth value
is not used. -/
theorem FillTopic_eq_fillLeftToRight_witness :
    (∀ v ∈ (["pk1", "dev1"] : List String), '+' ∉ v.data) ∧
      FillTopic AliyunTopicThingModelSvcReq ["pk1", "dev1"] =
        fillLeftToRight (Split AliyunTopicThingModelSvcReq '+') ["pk1", "dev1"] ∧
      fillLeftToRight (Split AliyunTopicThingModelSvcReq '+') ["pk1", "dev1"] =
        "/sys/pk1/dev1/thing/service/+" ∧
      fillLeftToRight (Split AliyunTopicThingModelSvcReq '+') ["pk1", "dev1", "reboot", "extra"] =
        "/sys/pk1/dev1/thing/service/reboot" :=
  ⟨by decide,
    (FillTopic_eq_fillLeftToRight AliyunTopicThingModelSvcReq ["pk1", "dev1"] (by decide)).2,
    by decide, by decide⟩

/-- C16: `FillTopic` has no error result; for a template with `k` markers and
`n` values that contain no `+` the result holds `k - n` markers (none when
`n ≥ k`), values beyond the k-th are ignored, and with no values the
template is returned unchanged. -/
theorem FillTopic_marker_count (t : String) (vs : List String)
    (hv : ∀ v ∈ vs, '+' ∉ v.data) :
    countChar '+' (FillTopic t vs).data = countChar '+' t.data - vs.length ∧
      (vs.length < countChar '+' t.data → '+' ∈ (FillTopic t vs).data) ∧
      FillTopic t vs = FillTopic t (vs.take (countChar '+' t.data)) ∧
      FillTopic t [] = t := by
  have hcount := countChar_FillTopic t vs hv
  refine ⟨hcount, ?_, FillTopic_take t vs hv, rfl⟩
  intro hlt
  by_contra hnot
  have := (countChar_eq_zero_iff '+' _).2 hnot
  omega

/-- C16 (witness): the service-request template with one value keeps two
markers, and with four values gives the same topic as with the first three. -/
theorem FillTopic_marker_count_witness :
    (∀ v ∈ (["pk1"] : List String), '+' ∉ v.data) ∧
      countChar '+' (FillTopic AliyunTopicThingModelSvcReq ["pk1"]).data =
        countChar '+' AliyunTopicThingModelSvcReq.data - (["pk1"] : List String).length ∧
      FillTopic AliyunTopicThingModelSvcReq ["pk1"] = "/sys/pk1/+/thing/service/+" ∧
      FillTopic AliyunTopicThingModelSvcReq ["pk1", "dev1", "reboot", "extra"] =
        FillTopic AliyunTopicThingModelSvcReq ["pk1", "dev1", "reboot"] :=
  ⟨by decide, (FillTopic_marker_count AliyunTopicThingModelSvcReq ["pk1"] (by decide)).1,
    by decide, by decide⟩

/-- C17: the four templates registered by `initMatcher` are pairwise disjoint
under the segment-wise matching: no topic is matched by two different
registered templates; hence registering the same four templates in any other
order gives, for every topic, the same match result. -/
theorem initMatcher_templates_disjoint (prev : Option Matcher) (topic : String) :
    (∀ t1 ∈ (initMatcher prev).paths, ∀ t2 ∈ (initMatcher prev).paths,
        (matchTemplate t1 topic).isSome = true → (matchTemplate t2 topic).isSome = true →
          t1 = t2) ∧
      ∀ l : List String, l.Perm (initMatcher prev).paths →
        matchPaths l topic = (initMatcher prev).MatchWithAnonymousParams topic := by
  have hdisj := fun t1 ht1 t2 ht2 h1 h2 => registered_disjoint prev topic t1 t2 ht1 ht2 h1 h2
  refine ⟨hdisj, ?_⟩
  intro l hl
  rw [initMatcher_lookup]
  exact matchPaths_perm l _ topic hl hdisj

/-- C17 (witness): the four templates registered in the reverse order give,
on the topic `/sys/a/b/thing/service/reboot`, the same result as the
registry of `initMatcher`. -/
theorem initMatcher_templates_disjoint_witness :
    ([AliyunTopicThingModelSvcReq, AliyunTopicThingModelPropSet, FogTopicThingModelSvcReq,
        FogTopicThingModelPropSet] : List String).Perm (initMatcher none).paths ∧
      matchPaths [AliyunTopicThingModelSvcReq, AliyunTopicThingModelPropSet,
          FogTopicThingModelSvcReq, FogTopicThingModelPropSet]
          "/sys/a/b/thing/service/reboot" =
        (initMatcher none).MatchWithAnonymousParams "/sys/a/b/thing/service/reboot" :=
  ⟨by decide,
    (initMatcher_templates_disjoint none "/sys/a/b/thing/service/reboot").2 _ (by decide)⟩

/-- C18 (amended): for every prior state of the global registry, an
`initMatcher` whose five statements run without a statement of another call
in between leaves the registry holding exactly the four templates in the
order property-set source, service-request source, Aliyun property-set,
Aliyun service-request; running it a second time gives the same registry;
the `HandleDownlink` statement leaves the registry unchanged; and when
`Handler` calls run one after another, in any order, every call gets the
result of `HandleDownlink` on that same registry, which is also the registry
left behind. -/
theorem Handler_calls_one_after_another {P : Type} (J : Jsoniter P) (w : World)
    (order : List Nat) (hnodup : order.Nodup)
    (hfresh : ∀ i ∈ order, (w.calls[i]?).map (fun c => c.pc) = some 0) :
    (initMatcher none).paths =
        [FogTopicThingModelPropSet, FogTopicThingModelSvcReq, AliyunTopicThingModelPropSet,
          AliyunTopicThingModelSvcReq] ∧
      (∀ i ∈ order, (w.run J (List.replicate 5 i)).downlinkMatcher = some (initMatcher none)) ∧
      (∀ i ∈ order, ∀ j ∈ order, i ≠ j →
        (w.run J (List.replicate 5 i ++ List.replicate 5 j)).downlinkMatcher =
          (w.run J (List.replicate 5 i)).downlinkMatcher) ∧
      (∀ (v : World) (i : Nat), (v.calls[i]?).map (fun c => c.pc) = some 5 →
        (v.step J i).downlinkMatcher = v.downlinkMatcher) ∧
      (∀ i ∈ order, ∀ c, w.calls[i]? = some c →
        (w.run J (oneAfterAnother order)).calls[i]? =
          some ⟨c.req, 6,
            some (HandleDownlink J (initMatcher none) c.req.RawClientid c.req.RawUsername
              c.req.RawPassword c.req.FogTopic c.req.FogPayload)⟩) ∧
      (order ≠ [] →
        (w.run J (oneAfterAnother order)).downlinkMatcher = some (initMatcher none)) ∧
      ∀ (marshalResp : String → String → String) (g : Option Matcher)
        (req : CloudGtwDownlinkReq),
        (Handler J marshalResp g req).1 =
          ((⟨g, [⟨req, 0, none⟩]⟩ : World).run J (List.replicate 6 0)).downlinkMatcher := by
  have hget : ∀ i ∈ order, ∃ c, w.calls[i]? = some c ∧ c.pc = 0 := by
    intro i hi
    have := hfresh i hi
    cases hci : w.calls[i]? with
    | none => simp [hci] at this
    | some c => exact ⟨c, rfl, by simpa [hci] using this⟩
  have hinit : ∀ i ∈ order,
      (w.run J (List.replicate 5 i)).downlinkMatcher = some (initMatcher none) := by
    intro i hi
    obtain ⟨c, hc, hpc⟩ := hget i hi
    rw [World.run_init J w i c hc hpc]
  obtain ⟨hres, _, hglobal⟩ := World.run_oneAfterAnother J order w hnodup hfresh
  refine ⟨rfl, hinit, ?_, ?_, hres, hglobal, ?_⟩
  · intro i hi j hj hij
    obtain ⟨ci, hci, hpci⟩ := hget i hi
    obtain ⟨cj, hcj, hpcj⟩ := hget j hj
    rw [World.run_append, hinit i hi, World.run_init J w i ci hci hpci]
    have hcj2 : (w.calls.set i ⟨ci.req, 5, ci.result⟩)[j]? = some cj := by
      rw [List.getElem?_set_ne hij]
      exact hcj
    rw [World.run_init J _ j cj hcj2 hpcj]
  · intro v i hv
    cases hci : v.calls[i]? with
    | none => simp [hci] at hv
    | some c =>
      have hpc : c.pc = 5 := by simpa [hci] using hv
      rw [World.step_handle J v i c hci hpc]
  · intro marshalResp g req
    rw [World.run_call J ⟨g, [⟨req, 0, none⟩]⟩ 0 ⟨req, 0, none⟩ rfl rfl]
    unfold Handler
    simp only []
    split <;> rfl

/-- C18 (witness): two calls run one after another, the second before the
first, starting from a global that holds a leftover entry; the registry left
behind is the one of `initMatcher`. -/
theorem Handler_calls_one_after_another_witness :
    ([1, 0] : List Nat).Nodup ∧
      (∀ i ∈ ([1, 0] : List Nat),
        ((twoCalls (some ⟨["leftover"], matchPaths⟩)).calls[i]?).map (fun c => c.pc) = some 0) ∧
      ((twoCalls (some ⟨["leftover"], matchPaths⟩)).run tinyJson
          (oneAfterAnother [1, 0])).downlinkMatcher = some (initMatcher none) :=
  ⟨by decide, by decide,
    (Handler_calls_one_after_another tinyJson (twoCalls (some ⟨["leftover"], matchPaths⟩))
      [1, 0] (by decide) (by decide)).2.2.2.2.2.1 (by decide)⟩

/-- C18 (counterexample): two calls with the same request (topic
`fogcloud/x/y/thing/down/property/set`, credential `dev1&pk1`), neither
started.  If the second call runs its first statement after the third
statement of the first call, the first call ends its `initMatcher` with a
registry of only the two Aliyun templates.  If the second call runs its first
statement between the `initMatcher` and the `HandleDownlink` of the first
call, the first call observes an empty registry and fails with
`ErrUnmatchedTopic`, while the second call, in the same run, succeeds. -/
theorem Handler_calls_overlapping :
    (∀ i ∈ ([0, 1] : List Nat), ((twoCalls none).calls[i]?).map (fun c => c.pc) = some 0) ∧
      (((twoCalls none).run tinyJson [0, 0, 0, 1, 0, 0]).calls[0]?).map (fun c => c.pc) =
        some 5 ∧
      ((twoCalls none).run tinyJson [0, 0, 0, 1, 0, 0]).downlinkMatcher.map (fun m => m.paths) =
        some [AliyunTopicThingModelPropSet, AliyunTopicThingModelSvcReq] ∧
      (((twoCalls none).run tinyJson [0, 0, 0, 0, 0, 1, 0, 1, 1, 1, 1, 1]).calls[0]?).bind
          (fun c => c.result) = some ("", "", some ErrUnmatchedTopic) ∧
      (((twoCalls none).run tinyJson [0, 0, 0, 0, 0, 1, 0, 1, 1, 1, 1, 1]).calls[1]?).bind
          (fun c => c.result) =
        some ("/sys/pk1/dev1/thing/service/property/set",
          payloadFogToAliyun tinyJson "\x7b\x7d" "thing.service.property.set", none) := by
  decide

end FogAliyun
